import Mathlib

/-!
Verification of the chunked recommendation engine
(src/server/services/chunkedRecommendationEngine.js).

The JavaScript source is shallowly embedded: JS numbers that hold
probabilities and similarity scores become rationals, JS arrays become
lists, JS objects used as keyed maps become association lists with
last-write-wins assignment, and the progress-callback event stream
becomes an explicitly returned list of events.
-/

namespace Ajmi

/-! ## Data model (field names follow the JS records) -/

structure Course where
  CourseBasicDataId : Nat
  CustomName : String
  Status : Nat
  deriving DecidableEq, Repr

structure Trainee where
  MemberId : Nat
  Name : String
  FirstName : String
  LastName : String
  Email : String
  Phone : String
  deriving DecidableEq, Repr

structure Enrollment where
  MemberId : Nat
  CourseId : Nat
  EnrollmentDate : String
  deriving DecidableEq, Repr

structure Dataset where
  courses : List Course
  trainees : List Trainee
  enrollments : List Enrollment
  deriving DecidableEq, Repr

/-- Dataset as it arrives at the entry point: any collection may be
missing (JS undefined), which the engine must reject up front. -/
structure RawDataset where
  courses : Option (List Course)
  trainees : Option (List Trainee)
  enrollments : Option (List Enrollment)
  deriving DecidableEq, Repr

/-! ## JS primitives -/

/-- JS String.prototype.toLowerCase, written over the character list so
that it evaluates by kernel reduction. -/
def jsToLower (s : String) : String :=
  String.mk (s.data.map Char.toLower)

/-- JS String.prototype.trim: strip whitespace from both ends. -/
def jsTrim (s : String) : String :=
  String.mk (((s.data.dropWhile Char.isWhitespace).reverse.dropWhile
    Char.isWhitespace).reverse)

/-- JS String.prototype.includes: the pattern occurs contiguously. -/
def jsIncludes (s pat : String) : Bool :=
  decide (pat.data <:+: s.data)

/-- Assignment obj".k = v" on a JS object viewed as an association list:
overwrite the existing binding, else append a new one. -/
def objSet {α : Type} (m : List (Nat × α)) (k : Nat) (v : α) : List (Nat × α) :=
  match m with
  | [] => [(k, v)]
  | (k', v') :: rest =>
    if k' = k then (k', v) :: rest else (k', v') :: objSet rest k v

/-- Property read obj"[k]" on a JS object viewed as an association list. -/
def objGet {α : Type} (m : List (Nat × α)) (k : Nat) : Option α :=
  (m.find? (fun kv => kv.1 = k)).map (fun kv => kv.2)

/-- JS Math.round on a rational: round half toward positive infinity,
which is exactly Mathlib round. -/
def jsRound (x : ℚ) : ℤ := round x

/-- Rounding to two decimals, as in Math.round(x * 100) / 100. -/
def round2 (x : ℚ) : ℚ := (jsRound (x * 100) : ℚ) / 100

/-! ## SimilarityIndex -/

/-- Splitting a character list at every whitespace character
(consecutive separators produce empty pieces, exactly as JS split). -/
def splitWsAux : List Char → List Char → List (List Char)
  | [], acc => [acc.reverse]
  | c :: cs, acc =>
    if c.isWhitespace then acc.reverse :: splitWsAux cs []
    else splitWsAux cs (c :: acc)

/-- Course-name tokenization from calculateBasicSimilarityMatrix:
name.toLowerCase().split(whitespace regex).filter(word.length > 2).
Splitting at every whitespace character instead of at runs only adds
empty tokens, which the length filter removes; tokens are kept as
character lists. -/
def tokenize (name : String) : List (List Char) :=
  (splitWsAux (name.data.map Char.toLower) []).filter (fun w => w.length > 2)

/-- calculateFastSimilarity(words1, words2): counts the entries of
words1 (with multiplicity) that occur in words2, divided by the larger
list length; 0 when either list is empty. -/
def calculateFastSimilarity (words1 words2 : List (List Char)) : ℚ :=
  if words1.length = 0 ∨ words2.length = 0 then 0
  else ((words1.filter (fun w => w ∈ words2)).length : ℚ) /
    (max words1.length words2.length : ℚ)

/-- A similarity-matrix row: inner JS object courseId -> score. -/
abbrev SimRow : Type := List (Nat × ℚ)

/-- The similarity matrix: outer JS object courseId -> row. -/
abbrev SimMatrix : Type := List (Nat × SimRow)

/-- One row of calculateBasicSimilarityMatrix: for a fixed course1,
assign matrix[course1][course2] for every processed course2 in order. -/
def buildSimRow (c1 : Nat × List (List Char))
    (processed : List (Nat × List (List Char))) : SimRow :=
  processed.foldl
    (fun row c2 =>
      objSet row c2.1
        (if c1.1 = c2.1 then 1 else calculateFastSimilarity c1.2 c2.2))
    []

/-- calculateBasicSimilarityMatrix(courses). -/
def calculateBasicSimilarityMatrix (courses : List Course) : SimMatrix :=
  let processed := courses.map (fun c => (c.CourseBasicDataId, tokenize c.CustomName))
  processed.foldl (fun m c1 => objSet m c1.1 (buildSimRow c1 processed)) []

/-- The lookup pattern similarityMatrix[a]?.[b] || 0 used everywhere
the matrix is read: any missing key yields 0. -/
def getSim (matrix : SimMatrix) (a b : Nat) : ℚ :=
  match objGet matrix a with
  | none => 0
  | some row =>
    match objGet row b with
    | none => 0
    | some v => v

/-! ## ScoringEngine -/

/-- calculateFastRecommendationProbability(enrolledCourseIds, course,
enrollments, similarityMatrix). -/
def calculateFastRecommendationProbability (enrolledCourseIds : List Nat)
    (course : Course) (enrollments : List Enrollment) (matrix : SimMatrix) : ℚ :=
  let base : ℚ := 1/10
  let courseEnrollments :=
    (enrollments.filter (fun e => e.CourseId = course.CourseBasicDataId)).length
  let withPopularity := base + min ((courseEnrollments : ℚ) / 100) (3/10)
  let withSimilarity :=
    if enrolledCourseIds.length > 0 then
      withPopularity +
        (enrolledCourseIds.foldl
          (fun m e => max m (getSim matrix course.CourseBasicDataId e)) 0) * (1/2)
    else withPopularity
  let withStatus := if course.Status = 1 then withSimilarity + 1/5 else withSimilarity
  min withStatus 1

/-- An entry of the similarCourses list built by findTopSimilarCourses. -/
structure SimilarCourse where
  courseId : Nat
  courseName : String
  similarity : ℚ
  deriving DecidableEq, Repr

structure Recommendation where
  courseId : Nat
  courseName : String
  courseStatus : Nat
  probability : ℚ
  explanation : Option String
  similarCourses : List SimilarCourse
  deriving DecidableEq, Repr

/-- JS Map built by courses.forEach(map.set(id, course)): on duplicate
ids the last write wins, so lookup keeps the last matching course. -/
def courseMapGet (courses : List Course) (id : Nat) : Option Course :=
  courses.foldl (fun acc c => if c.CourseBasicDataId = id then some c else acc) none

/-- findTopSimilarCourses(courseId, enrolledCourseIds, courses,
similarityMatrix): collect enrolled courses with raw similarity above
0.1 (skipping ids absent from the course map), store the similarity
rounded to two decimals, sort descending by the stored similarity
(stable, as JS sort), and keep the first two. -/
def findTopSimilarCourses (courseId : Nat) (enrolledCourseIds : List Nat)
    (courses : List Course) (matrix : SimMatrix) : List SimilarCourse :=
  let similarities := enrolledCourseIds.filterMap (fun enrolledCourseId =>
    let similarity := getSim matrix courseId enrolledCourseId
    if similarity > 1/10 then
      (courseMapGet courses enrolledCourseId).map (fun enrolledCourse =>
        { courseId := enrolledCourseId
          courseName := enrolledCourse.CustomName
          similarity := round2 similarity })
    else none)
  (similarities.mergeSort (fun a b => decide (b.similarity ≤ a.similarity))).take 2

structure RecOptions where
  maxRecommendations : Nat
  minProbability : ℚ
  includeExplanations : Bool
  deriving DecidableEq, Repr

/-- The explanation template string of generateTraineeRecommendations. -/
def explanationText (probability : ℚ) : String :=
  toString (jsRound (probability * 100)) ++
    "% match based on enrollment patterns and course similarity"

/-- generateTraineeRecommendations(trainee, courses, enrollments,
similarityMatrix, courseContexts, options): skip enrolled courses,
score the rest, keep those scoring at least minProbability, sort
descending by the stored probability (stable), truncate. -/
def generateTraineeRecommendations (trainee : Trainee) (courses : List Course)
    (enrollments : List Enrollment) (matrix : SimMatrix) (options : RecOptions) :
    List Recommendation :=
  let enrolledCourseIds :=
    (enrollments.filter (fun e => e.MemberId = trainee.MemberId)).map
      (fun e => e.CourseId)
  let recommendations := courses.filterMap (fun course =>
    if course.CourseBasicDataId ∈ enrolledCourseIds then none
    else
      let probability := calculateFastRecommendationProbability
        enrolledCourseIds course enrollments matrix
      if probability ≥ options.minProbability then
        some
          { courseId := course.CourseBasicDataId
            courseName := course.CustomName
            courseStatus := course.Status
            probability := round2 probability
            explanation :=
              if options.includeExplanations then some (explanationText probability)
              else none
            similarCourses :=
              if enrolledCourseIds.length > 0 then
                findTopSimilarCourses course.CourseBasicDataId enrolledCourseIds
                  courses matrix
              else [] }
      else none)
  (recommendations.mergeSort (fun a b => decide (b.probability ≤ a.probability))).take
    options.maxRecommendations

/-- An entry of currentCourses built by getTraineeCurrentCourses. -/
structure CurrentCourse where
  courseId : Nat
  courseName : String
  courseStatus : Nat
  enrollmentDate : String
  deriving DecidableEq, Repr

/-- getTraineeCurrentCourses(traineeId, enrollments, courses): map the
trainee's enrollments through the course map and keep only entries
whose course exists (the isValid filter). -/
def getTraineeCurrentCourses (traineeId : Nat) (enrollments : List Enrollment)
    (courses : List Course) : List CurrentCourse :=
  (enrollments.filter (fun e => e.MemberId = traineeId)).filterMap (fun enrollment =>
    (courseMapGet courses enrollment.CourseId).map (fun course =>
      { courseId := enrollment.CourseId
        courseName := course.CustomName
        courseStatus := course.Status
        enrollmentDate := enrollment.EnrollmentDate }))

/-! ## TraineeFilterPipeline -/

/-- The filters object taken by applyTraineeFilters. Option none stands
for a JS undefined field. The enrollments field is the cleaned
enrollment list spliced in by the caller. -/
structure TraineeFilters where
  nameSearch : Option String
  emailSearch : Option String
  phoneSearch : Option String
  hasEnrollments : Option Bool
  enrolledInCourse : Option (List Nat)
  minEnrollments : Option Nat
  maxEnrollments : Option Nat
  randomSample : Bool
  randomSampleSize : Option Nat
  maxResults : Option Nat
  enrollments : List Enrollment
  deriving DecidableEq, Repr

/-- Guard filters.nameSearch and nameSearch.trim() being truthy. -/
def nameSearchActive (f : TraineeFilters) : Bool :=
  match f.nameSearch with
  | some s => jsTrim s ≠ ""
  | none => false

def emailSearchActive (f : TraineeFilters) : Bool :=
  match f.emailSearch with
  | some s => jsTrim s ≠ ""
  | none => false

def phoneSearchActive (f : TraineeFilters) : Bool :=
  match f.phoneSearch with
  | some s => jsTrim s ≠ ""
  | none => false

/-- Guard filters.enrolledInCourse and enrolledInCourse.length > 0. -/
def enrolledInCourseActive (f : TraineeFilters) : Bool :=
  match f.enrolledInCourse with
  | some l => l.length > 0
  | none => false

/-- Guard filters.randomSample and filters.randomSampleSize (a number
is truthy when nonzero). -/
def randomSampleActive (f : TraineeFilters) : Bool :=
  f.randomSample &&
    (match f.randomSampleSize with
     | some n => n ≠ 0
     | none => false)

/-- Guard filters.maxResults and filters.maxResults > 0. -/
def maxResultsActive (f : TraineeFilters) : Bool :=
  match f.maxResults with
  | some m => 0 < m
  | none => false

/-- The name predicate: term matches Name, FirstName or LastName. -/
def nameMatches (searchTerm : String) (t : Trainee) : Bool :=
  jsIncludes (jsToLower t.Name) searchTerm ||
  jsIncludes (jsToLower t.FirstName) searchTerm ||
  jsIncludes (jsToLower t.LastName) searchTerm

/-- traineeHasEnrollments(traineeId, enrollments). -/
def traineeHasEnrollments (traineeId : Nat) (enrollments : List Enrollment) : Bool :=
  enrollments.any (fun e => e.MemberId = traineeId)

/-- traineeEnrolledInCourses(traineeId, courseIds, enrollments). -/
def traineeEnrolledInCourses (traineeId : Nat) (courseIds : List Nat)
    (enrollments : List Enrollment) : Bool :=
  let traineeEnrollments := enrollments.filter (fun e => e.MemberId = traineeId)
  courseIds.any (fun courseId =>
    traineeEnrollments.any (fun e => e.CourseId = courseId))

/-- getTraineeEnrollmentCount(traineeId, enrollments). -/
def getTraineeEnrollmentCount (traineeId : Nat) (enrollments : List Enrollment) : Nat :=
  (enrollments.filter (fun e => e.MemberId = traineeId)).length

/-- applyTraineeFilters(trainees, filters). The random shuffle seen by
the sort-with-random-comparator trick is abstracted as the shuffle
parameter (the JS engine guarantees only a permutation). -/
def applyTraineeFilters (shuffle : List Trainee → List Trainee)
    (trainees : List Trainee) (f : TraineeFilters) : List Trainee :=
  let l1 :=
    if nameSearchActive f then
      let searchTerm := jsTrim (jsToLower (f.nameSearch.getD ""))
      trainees.filter (fun t => nameMatches searchTerm t)
    else trainees
  let l2 :=
    if emailSearchActive f then
      let searchTerm := jsTrim (jsToLower (f.emailSearch.getD ""))
      l1.filter (fun t => jsIncludes (jsToLower t.Email) searchTerm)
    else l1
  let l3 :=
    if phoneSearchActive f then
      let searchTerm := jsTrim (f.phoneSearch.getD "")
      l2.filter (fun t => jsIncludes t.Phone searchTerm)
    else l2
  let l4 :=
    if f.hasEnrollments.isSome then
      l3.filter (fun t =>
        traineeHasEnrollments t.MemberId f.enrollments = f.hasEnrollments.getD false)
    else l3
  let l5 :=
    if enrolledInCourseActive f then
      l4.filter (fun t =>
        traineeEnrolledInCourses t.MemberId (f.enrolledInCourse.getD []) f.enrollments)
    else l4
  let l6 :=
    if f.minEnrollments.isSome || f.maxEnrollments.isSome then
      l5.filter (fun t =>
        (!f.minEnrollments.isSome ||
          f.minEnrollments.getD 0 ≤ getTraineeEnrollmentCount t.MemberId f.enrollments) &&
        (!f.maxEnrollments.isSome ||
          getTraineeEnrollmentCount t.MemberId f.enrollments ≤ f.maxEnrollments.getD 0))
    else l5
  let l7 :=
    if randomSampleActive f then (shuffle l6).take (f.randomSampleSize.getD 0)
    else l6
  if !f.randomSample && maxResultsActive f then l7.take (f.maxResults.getD 0)
  else l7

/-! ## DataSanitizer -/

/-- cleanDataIntegrity(data): drop enrollments whose CourseId is not
among the course ids; courses and trainees pass through. -/
def cleanDataIntegrity (data : Dataset) : Dataset :=
  let validCourseIds := data.courses.map (fun c => c.CourseBasicDataId)
  let validEnrollments :=
    data.enrollments.filter (fun enrollment => enrollment.CourseId ∈ validCourseIds)
  { courses := data.courses
    enrollments := validEnrollments
    trainees := data.trainees }

/-! ## ChunkedExecutor -/

/-- The stage/type tag of an emitted event (the JS events carry a type
field that is progress for the staged events, and dedicated types for
trainee completion, final completion and errors). -/
inductive EvKind where
  | initializing
  | courseAnalysis
  | chunkingSetup
  | chunkStart
  | traineeStart
  | traineeComplete
  | chunkComplete
  | completed
  | errored
  deriving DecidableEq, Repr

/-- The per-trainee result record pushed to traineeRecommendations and
carried by the trainee_complete event. -/
structure TraineeResult where
  traineeId : Nat
  traineeName : String
  traineeEmail : String
  traineePhone : String
  currentCourses : List CurrentCourse
  recommendations : List Recommendation
  processedAt : String
  deriving DecidableEq, Repr

/-- One progress-callback invocation. Fields absent on a given JS event
are none. -/
structure Ev where
  kind : EvKind
  progress : Option ℤ
  processedTrainees : Option Nat
  message : String
  payload : Option TraineeResult
  deriving DecidableEq, Repr

/-- Math.round(20 + (processed / totalTrainees) * 70), the progress
value used by every chunk-level and trainee-level event. -/
def progVal (processed total : Nat) : ℤ :=
  jsRound (20 + ((processed : ℚ) / (total : ℚ)) * 70)

/-- The chunking loop: for (i = 0; i < n; i += chunkSize)
chunks.push(slice(i, i + chunkSize)). A chunk size of 0 makes the JS
loop diverge; theorems about the executor assume a positive size. -/
def chunkList {α : Type} : Nat → List α → List (List α)
  | _, [] => []
  | 0, l => [l]
  | n+1, x :: xs =>
    (x :: xs).take (n+1) :: chunkList (n+1) ((x :: xs).drop (n+1))
termination_by _ l => l.length
decreasing_by
  simp only [List.length_drop, List.length_cons]
  omega

/-- Safe trainee display name: trainee.Name falsy falls back to
a Trainee-plus-id label. -/
def traineeDisplayName (t : Trainee) : String :=
  if t.Name = "" then "Trainee " ++ toString t.MemberId else t.Name

/-- The traineeResult record built inside the chunk loop; the
recommendations argument is whatever the scorer returned. -/
def mkTraineeResult (cleaned : Dataset) (now : String) (t : Trainee)
    (recommendations : List Recommendation) : TraineeResult :=
  { traineeId := t.MemberId
    traineeName := traineeDisplayName t
    traineeEmail := t.Email
    traineePhone := t.Phone
    currentCourses := getTraineeCurrentCourses t.MemberId cleaned.enrollments cleaned.courses
    recommendations := recommendations
    processedAt := now }

def traineeStartEv (total globalIndex : Nat) : Ev :=
  { kind := .traineeStart
    progress := some (progVal globalIndex total)
    processedTrainees := some globalIndex
    message := ""
    payload := none }

def traineeCompleteEv (total : Nat) (processed : Nat) (result : TraineeResult) : Ev :=
  { kind := .traineeComplete
    progress := some (progVal processed total)
    processedTrainees := some processed
    message := ""
    payload := some result }

def chunkStartEv (total processed : Nat) : Ev :=
  { kind := .chunkStart
    progress := some (progVal processed total)
    processedTrainees := some processed
    message := ""
    payload := none }

def chunkCompleteEv (total processed : Nat) : Ev :=
  { kind := .chunkComplete
    progress := some (progVal processed total)
    processedTrainees := some processed
    message := ""
    payload := none }

def setupEvs : List Ev :=
  [ { kind := .initializing, progress := some 0, processedTrainees := none
      message := "", payload := none }
  , { kind := .courseAnalysis, progress := some 5, processedTrainees := none
      message := "", payload := none }
  , { kind := .chunkingSetup, progress := some 15, processedTrainees := none
      message := "", payload := none } ]

def completeEv : Ev :=
  { kind := .completed, progress := some 100, processedTrainees := none
    message := "", payload := none }

def errorEv (message : String) : Ev :=
  { kind := .errored, progress := none, processedTrainees := none
    message := message, payload := none }

/-- The inner trainee loop over one list of trainees, starting at the
given global index: emit trainee_start, score (which in JS may throw:
an Except.error aborts at once), build and record the result, emit
trainee_complete. Returns the emitted events and either the collected
results or the error message. -/
def runFlat (score : Trainee → Except String (List Recommendation))
    (cleaned : Dataset) (total : Nat) (now : String) :
    Nat → List Trainee → List Ev × Except String (List TraineeResult)
  | _, [] => ([], .ok [])
  | globalIndex, t :: ts =>
    let startEv := traineeStartEv total globalIndex
    match score t with
    | .error m => ([startEv], .error m)
    | .ok recommendations =>
      let result := mkTraineeResult cleaned now t recommendations
      let doneEv := traineeCompleteEv total (globalIndex + 1) result
      match runFlat score cleaned total now (globalIndex + 1) ts with
      | (evs, .error m) => (startEv :: doneEv :: evs, .error m)
      | (evs, .ok results) => (startEv :: doneEv :: evs, .ok (result :: results))

/-- The chunk loop: chunk_start, the inner trainee loop, chunk_complete,
then the remaining chunks, threading processedCount. -/
def runChunks (score : Trainee → Except String (List Recommendation))
    (cleaned : Dataset) (total : Nat) (now : String) :
    Nat → List (List Trainee) → List Ev × Except String (List TraineeResult)
  | _, [] => ([], .ok [])
  | processedCount, chunk :: rest =>
    let startEv := chunkStartEv total processedCount
    match runFlat score cleaned total now processedCount chunk with
    | (evs, .error m) => (startEv :: evs, .error m)
    | (evs, .ok results) =>
      let processedCount' := processedCount + chunk.length
      let doneEv := chunkCompleteEv total processedCount'
      match runChunks score cleaned total now processedCount' rest with
      | (evs2, .error m) => (startEv :: evs ++ doneEv :: evs2, .error m)
      | (evs2, .ok results2) => (startEv :: evs ++ doneEv :: evs2, .ok (results ++ results2))

/-- The engine options consumed by the chunked entry point. -/
structure ChunkedOptions where
  maxRecommendations : Nat
  minProbability : ℚ
  includeExplanations : Bool
  maxTrainees : Nat
  chunkSize : Nat
  traineeFilters : TraineeFilters
  deriving DecidableEq, Repr

def ChunkedOptions.recOptions (o : ChunkedOptions) : RecOptions :=
  { maxRecommendations := o.maxRecommendations
    minProbability := o.minProbability
    includeExplanations := o.includeExplanations }

/-- The filters object actually passed to applyTraineeFilters: the
caller's traineeFilters with the cleaned enrollments spliced in. -/
def effectiveFilters (o : ChunkedOptions) (cleaned : Dataset) : TraineeFilters :=
  { o.traineeFilters with enrollments := cleaned.enrollments }

/-- The filtered-then-limited working set of trainees. -/
def limitedTrainees (shuffle : List Trainee → List Trainee)
    (data : Dataset) (o : ChunkedOptions) : List Trainee :=
  let cleaned := cleanDataIntegrity data
  (applyTraineeFilters shuffle cleaned.trainees (effectiveFilters o cleaned)).take
    o.maxTrainees

/-- generateTraineeRecommendationsChunked over an already validated
dataset: clean, filter, limit, build the similarity matrix, process the
chunks with the given scorer, and wrap the event stream with the setup
events and the terminal complete or error event. -/
def runValidated (score : Dataset → SimMatrix → Trainee → Except String (List Recommendation))
    (shuffle : List Trainee → List Trainee) (now : String)
    (data : Dataset) (o : ChunkedOptions) :
    List Ev × Except String (List TraineeResult) :=
  let cleaned := cleanDataIntegrity data
  let limited := limitedTrainees shuffle data o
  let total := limited.length
  let matrix := calculateBasicSimilarityMatrix cleaned.courses
  let chunks := chunkList o.chunkSize limited
  match runChunks (score cleaned matrix) cleaned total now 0 chunks with
  | (evs, .error m) => (setupEvs ++ evs ++ [errorEv m], .error m)
  | (evs, .ok results) => (setupEvs ++ evs ++ [completeEv], .ok results)

/-- The message of the up-front structure check. -/
def invalidDataMsg : String := "Invalid data structure"

/-- generateTraineeRecommendationsChunked(data, options,
progressCallback), parameterized by the scorer so that a scorer that
throws can be studied. A missing collection throws before anything
else runs; the catch block then emits the single error event and
rethrows the message. -/
def generateChunkedWith
    (score : Dataset → SimMatrix → Trainee → Except String (List Recommendation))
    (shuffle : List Trainee → List Trainee) (now : String)
    (data : Option RawDataset) (o : ChunkedOptions) :
    List Ev × Except String (List TraineeResult) :=
  match data with
  | none => ([errorEv invalidDataMsg], .error invalidDataMsg)
  | some d =>
    match d.courses, d.trainees, d.enrollments with
    | some courses, some trainees, some enrollments =>
      runValidated score shuffle now
        { courses := courses, trainees := trainees, enrollments := enrollments } o
    | _, _, _ => ([errorEv invalidDataMsg], .error invalidDataMsg)

/-- The scorer the engine actually uses: generateTraineeRecommendations
over the cleaned data and the basic similarity matrix; it is total. -/
def engineScore (o : ChunkedOptions) (cleaned : Dataset) (matrix : SimMatrix)
    (t : Trainee) : Except String (List Recommendation) :=
  .ok (generateTraineeRecommendations t cleaned.courses cleaned.enrollments matrix
    o.recOptions)

/-- generateTraineeRecommendationsChunked as shipped. -/
def generateTraineeRecommendationsChunked
    (shuffle : List Trainee → List Trainee) (now : String)
    (data : Option RawDataset) (o : ChunkedOptions) :
    List Ev × Except String (List TraineeResult) :=
  generateChunkedWith (engineScore o) shuffle now data o

/-! ## Association-list lemmas -/

theorem objGet_cons {α : Type} (k0 : Nat) (v0 : α) (rest : List (Nat × α)) (k' : Nat) :
    objGet ((k0, v0) :: rest) k' = if k0 = k' then some v0 else objGet rest k' := by
  simp only [objGet, List.find?]
  by_cases h : k0 = k'
  · simp [h]
  · simp [h]

theorem objGet_objSet {α : Type} (m : List (Nat × α)) (k k' : Nat) (v : α) :
    objGet (objSet m k v) k' = if k' = k then some v else objGet m k' := by
  induction m with
  | nil =>
    show objGet [(k, v)] k' = _
    rw [objGet_cons]
    rcases eq_or_ne k k' with h | h
    · simp [h]
    · simp [h, h.symm, objGet]
  | cons kv rest ih =>
    obtain ⟨k0, v0⟩ := kv
    show objGet (if k0 = k then (k0, v) :: rest else (k0, v0) :: objSet rest k v) k' = _
    by_cases h0 : k0 = k
    · subst h0
      rw [if_pos rfl, objGet_cons, objGet_cons]
      rcases eq_or_ne k0 k' with h | h
      · simp [h]
      · simp [h, h.symm]
    · rw [if_neg h0, objGet_cons, objGet_cons]
      rcases eq_or_ne k0 k' with h | h
      · subst h
        simp [h0]
      · rw [if_neg h, if_neg h, ih]

theorem objGet_foldl_objSet {α β : Type} (key : β → Nat) (val : β → α) :
    ∀ (l : List β) (init : List (Nat × α)) (k : Nat),
      objGet (l.foldl (fun m c => objSet m (key c) (val c)) init) k =
        (match l.reverse.find? (fun c => key c = k) with
         | some c => some (val c)
         | none => objGet init k) := by
  intro l
  induction l with
  | nil => intro init k; simp
  | cons c t ih =>
    intro init k
    simp only [List.foldl_cons, List.reverse_cons]
    rw [ih, List.find?_append]
    rcases ht : t.reverse.find? (fun c => decide (key c = k)) with _ | c'
    · simp only [Option.none_or]
      rcases hkc : (decide (key c = k)) with _ | _
      · have hfind : List.find? (fun c => decide (key c = k)) [c] = none := by
          simp [List.find?, hkc]
        rw [hfind, objGet_objSet]
        have hne : ¬ (k = key c) := by
          intro h
          rw [h] at hkc
          simp at hkc
        simp [hne]
      · have hfind : List.find? (fun c => decide (key c = k)) [c] = some c := by
          simp [List.find?, hkc]
        rw [hfind, objGet_objSet]
        have heq : key c = k := of_decide_eq_true hkc
        simp [heq]
    · simp [Option.or]

/-! ## Similarity-matrix characterization -/

/-- The last course in the list carrying a given id (JS object writes
overwrite, so a later read sees the last write). -/
def lastCourseWithId (courses : List Course) (id : Nat) : Option Course :=
  courses.reverse.find? (fun c => c.CourseBasicDataId = id)

theorem getSim_matrix (courses : List Course) (a b : Nat) :
    getSim (calculateBasicSimilarityMatrix courses) a b =
      (match lastCourseWithId courses a, lastCourseWithId courses b with
       | some c1, some c2 =>
         if a = b then 1
         else calculateFastSimilarity (tokenize c1.CustomName) (tokenize c2.CustomName)
       | _, _ => 0) := by
  unfold getSim calculateBasicSimilarityMatrix lastCourseWithId
  rw [objGet_foldl_objSet (fun p => p.1) (fun c1 =>
    buildSimRow c1 (courses.map (fun c => (c.CourseBasicDataId, tokenize c.CustomName))))]
  rw [← List.map_reverse, List.find?_map]
  have hcomp1 : ((fun p : Nat × List (List Char) => decide (p.1 = a)) ∘
      fun c => (c.CourseBasicDataId, tokenize c.CustomName)) =
      (fun c : Course => decide (c.CourseBasicDataId = a)) := rfl
  rw [hcomp1]
  rcases h1 : courses.reverse.find? (fun c => decide (c.CourseBasicDataId = a)) with _ | c1
  · rw [h1]
    rfl
  · rw [h1]
    simp only [Option.map_some']
    unfold buildSimRow
    rw [objGet_foldl_objSet (fun p : Nat × List (List Char) => p.1)
      (fun c2 : Nat × List (List Char) =>
        if (c1.CourseBasicDataId, tokenize c1.CustomName).1 = c2.1 then 1
        else calculateFastSimilarity (c1.CourseBasicDataId, tokenize c1.CustomName).2 c2.2)
      (List.map (fun c => (c.CourseBasicDataId, tokenize c.CustomName)) courses) [] b]
    rw [← List.map_reverse, List.find?_map]
    have hcomp2 : ((fun p : Nat × List (List Char) => decide (p.1 = b)) ∘
        fun c => (c.CourseBasicDataId, tokenize c.CustomName)) =
        (fun c : Course => decide (c.CourseBasicDataId = b)) := rfl
    rw [hcomp2]
    rcases h2 : courses.reverse.find? (fun c => decide (c.CourseBasicDataId = b)) with _ | c2
    · rw [h2]
      rfl
    · rw [h2]
      simp only [Option.map_some']
      have ha : c1.CourseBasicDataId = a := by simpa using List.find?_some h1
      have hb : c2.CourseBasicDataId = b := by simpa using List.find?_some h2
      simp [ha, hb]

/-! ## Similarity lemmas -/

theorem calculateFastSimilarity_nonneg (w1 w2 : List (List Char)) :
    0 ≤ calculateFastSimilarity w1 w2 := by
  unfold calculateFastSimilarity
  split
  · exact le_refl 0
  · positivity

theorem calculateFastSimilarity_comm_of_nodup {w1 w2 : List (List Char)}
    (h1 : w1.Nodup) (h2 : w2.Nodup) :
    calculateFastSimilarity w1 w2 = calculateFastSimilarity w2 w1 := by
  unfold calculateFastSimilarity
  have key : ∀ (u v : List (List Char)), u.Nodup →
      (u.filter (fun w => w ∈ v)).length = (u.toFinset ∩ v.toFinset).card := by
    intro u v hu
    have hnd : (u.filter (fun w => w ∈ v)).Nodup := hu.filter _
    rw [← List.toFinset_card_of_nodup hnd, List.toFinset_filter]
    congr 1
    rw [← Finset.filter_mem_eq_inter]
    apply Finset.filter_congr
    intro x _
    simp only [List.mem_toFinset, decide_eq_true_eq]
  by_cases e1 : w1.length = 0
  · rw [if_pos (Or.inl e1), if_pos (Or.inr e1)]
  · by_cases e2 : w2.length = 0
    · rw [if_pos (Or.inr e2), if_pos (Or.inl e2)]
    · rw [if_neg (by tauto), if_neg (by tauto)]
      rw [key w1 w2 h1, key w2 w1 h2, Finset.inter_comm, max_comm ((w1.length : Rat)) ((w2.length : Rat))]

/-- Duplicate removal on token lists (set representative). -/
def dedupTokens : List (List Char) → List (List Char)
  | [] => []
  | w :: ws => if w ∈ dedupTokens ws then dedupTokens ws else w :: dedupTokens ws

theorem mem_dedupTokens :
    ∀ (l : List (List Char)) (x : List Char), x ∈ dedupTokens l ↔ x ∈ l := by
  intro l
  induction l with
  | nil => intro x; simp [dedupTokens]
  | cons w ws ih =>
    intro x
    simp only [dedupTokens]
    by_cases h : w ∈ dedupTokens ws
    · rw [if_pos h]
      have hw : w ∈ ws := (ih w).mp h
      rw [ih x, List.mem_cons]
      constructor
      · intro hx
        exact Or.inr hx
      · intro hx
        rcases hx with he | hx
        · rw [he]
          exact hw
        · exact hx
    · rw [if_neg h]
      simp [ih x]

theorem dedupTokens_eq_self : ∀ {l : List (List Char)}, l.Nodup → dedupTokens l = l := by
  intro l
  induction l with
  | nil => intro _; rfl
  | cons w ws ih =>
    intro h
    rw [List.nodup_cons] at h
    simp only [dedupTokens]
    rw [if_neg (fun hm => h.1 ((mem_dedupTokens ws w).mp hm)), ih h.2]

/-- Modelled from the spec, section 4.2: the set-based token-overlap
formula (sets represented as deduplicated token lists), kept for
comparison against the shipped multiplicity-counting similarity. -/
def specSetSimilarity (name1 name2 : String) : ℚ :=
  let t1 := dedupTokens (tokenize name1)
  let t2 := dedupTokens (tokenize name2)
  if t1.length = 0 ∨ t2.length = 0 then 0
  else ((t1.filter (fun w => w ∈ t2)).length : ℚ) / (max t1.length t2.length : ℚ)

theorem calculateFastSimilarity_eq_spec_of_nodup {n1 n2 : String}
    (h1 : (tokenize n1).Nodup) (h2 : (tokenize n2).Nodup) :
    calculateFastSimilarity (tokenize n1) (tokenize n2) = specSetSimilarity n1 n2 := by
  unfold specSetSimilarity
  rw [dedupTokens_eq_self h1, dedupTokens_eq_self h2]
  rfl

/-! ## Claim C2 -/

/-- C2, counterexample: for the catalog with names "win win car" and
"win" the stored similarity is 2/3 (the code counts the duplicated
token "win" twice and divides by the raw token-list length 3), while
the claimed set formula gives 1/2; so the claimed equation between the
built matrix and the set formula is false. -/
theorem C2_counterexample :
    ¬ (getSim (calculateBasicSimilarityMatrix
          [{ CourseBasicDataId := 1, CustomName := "win win car", Status := 1 },
           { CourseBasicDataId := 2, CustomName := "win", Status := 1 }]) 1 2 =
        specSetSimilarity "win win car" "win") := by
  intro h
  have h1 : getSim (calculateBasicSimilarityMatrix
      [{ CourseBasicDataId := 1, CustomName := "win win car", Status := 1 },
       { CourseBasicDataId := 2, CustomName := "win", Status := 1 }]) 1 2 = 2/3 := by
    simp +decide only [getSim, calculateBasicSimilarityMatrix, buildSimRow, objSet,
      objGet, tokenize, splitWsAux, calculateFastSimilarity, List.foldl, List.filter,
      List.find?, List.map, List.length, List.reverse, List.reverseAux,
      Char.isWhitespace]
    norm_num
  have h2 : specSetSimilarity "win win car" "win" = 1/2 := by
    simp +decide only [specSetSimilarity, dedupTokens, tokenize, splitWsAux,
      List.filter, List.length, List.map, List.reverse, List.reverseAux,
      Char.isWhitespace]
    norm_num
  rw [h1, h2] at h
  norm_num at h

/-- C2 (amended): lookups with an unknown course id on either side
yield 0; the diagonal of a known id is 1; for two distinct known ids
the stored score is calculateFastSimilarity of the two (last-written)
token lists, which counts the tokens of the first list with
multiplicity; a similarity with an empty token list on either side is
0; and the claimed set formula does hold whenever the two token lists
are duplicate-free. -/
theorem C2_similarity_matrix_amended (courses : List Course) :
    (∀ a b : Nat,
      lastCourseWithId courses a = none ∨ lastCourseWithId courses b = none →
        getSim (calculateBasicSimilarityMatrix courses) a b = 0)
    ∧ (∀ (a : Nat) (c : Course), lastCourseWithId courses a = some c →
        getSim (calculateBasicSimilarityMatrix courses) a a = 1)
    ∧ (∀ (a b : Nat) (c1 c2 : Course), a ≠ b →
        lastCourseWithId courses a = some c1 → lastCourseWithId courses b = some c2 →
        getSim (calculateBasicSimilarityMatrix courses) a b =
          calculateFastSimilarity (tokenize c1.CustomName) (tokenize c2.CustomName))
    ∧ (∀ w1 w2 : List (List Char), w1.length = 0 ∨ w2.length = 0 →
        calculateFastSimilarity w1 w2 = 0)
    ∧ (∀ n1 n2 : String, (tokenize n1).Nodup → (tokenize n2).Nodup →
        calculateFastSimilarity (tokenize n1) (tokenize n2) = specSetSimilarity n1 n2) := by
  refine ⟨?_, ?_, ?_, ?_, ?_⟩
  · intro a b h
    rw [getSim_matrix]
    rcases h with h | h
    · rw [h]
    · rw [h]
      rcases lastCourseWithId courses a with _ | c1 <;> rfl
  · intro a c h
    rw [getSim_matrix, h]
    simp
  · intro a b c1 c2 hab h1 h2
    rw [getSim_matrix, h1, h2]
    simp [hab]
  · intro w1 w2 h
    unfold calculateFastSimilarity
    rw [if_pos h]
  · intro n1 n2 h1 h2
    exact calculateFastSimilarity_eq_spec_of_nodup h1 h2

/-- C2 witness: on a duplicate-free catalog the amended description
applies and the set formula agrees with the stored score. -/
theorem C2_witness :
    getSim (calculateBasicSimilarityMatrix
        [{ CourseBasicDataId := 1, CustomName := "red car", Status := 1 },
         { CourseBasicDataId := 2, CustomName := "red bus", Status := 2 }]) 1 2 =
      specSetSimilarity "red car" "red bus" := by
  have h := C2_similarity_matrix_amended
      [{ CourseBasicDataId := 1, CustomName := "red car", Status := 1 },
       { CourseBasicDataId := 2, CustomName := "red bus", Status := 2 }]
  rw [h.2.2.1 1 2 { CourseBasicDataId := 1, CustomName := "red car", Status := 1 }
    { CourseBasicDataId := 2, CustomName := "red bus", Status := 2 }
    (by decide) (by decide) (by decide)]
  exact h.2.2.2.2 "red car" "red bus" (by decide) (by decide)

/-! ## Claim C8 -/

/-- C8, counterexample: with course names "win win" and "win car" the
built matrix stores similarity 1 for the pair (1,2) but 1/2 for (2,1):
the matrix is not symmetric (the duplicate token "win" is counted twice
in one direction only). -/
theorem C8_counterexample :
    getSim (calculateBasicSimilarityMatrix
        [{ CourseBasicDataId := 1, CustomName := "win win", Status := 1 },
         { CourseBasicDataId := 2, CustomName := "win car", Status := 1 }]) 1 2 ≠
      getSim (calculateBasicSimilarityMatrix
        [{ CourseBasicDataId := 1, CustomName := "win win", Status := 1 },
         { CourseBasicDataId := 2, CustomName := "win car", Status := 1 }]) 2 1 := by
  have h1 : getSim (calculateBasicSimilarityMatrix
      [{ CourseBasicDataId := 1, CustomName := "win win", Status := 1 },
       { CourseBasicDataId := 2, CustomName := "win car", Status := 1 }]) 1 2 = 1 := by
    simp +decide only [getSim, calculateBasicSimilarityMatrix, buildSimRow, objSet,
      objGet, tokenize, splitWsAux, calculateFastSimilarity, List.foldl, List.filter,
      List.find?, List.map, List.length, List.reverse, List.reverseAux,
      Char.isWhitespace]
    norm_num
  have h2 : getSim (calculateBasicSimilarityMatrix
      [{ CourseBasicDataId := 1, CustomName := "win win", Status := 1 },
       { CourseBasicDataId := 2, CustomName := "win car", Status := 1 }]) 2 1 = 1/2 := by
    simp +decide only [getSim, calculateBasicSimilarityMatrix, buildSimRow, objSet,
      objGet, tokenize, splitWsAux, calculateFastSimilarity, List.foldl, List.filter,
      List.find?, List.map, List.length, List.reverse, List.reverseAux,
      Char.isWhitespace]
    norm_num
  rw [h1, h2]
  norm_num

/-- C8 (amended): the similarity matrix is symmetric provided every
course name tokenizes without duplicate tokens (which the
multiplicity-counting similarity needs for commutativity). -/
theorem C8_symmetry_amended (courses : List Course)
    (hnd : ∀ c ∈ courses, (tokenize c.CustomName).Nodup) :
    ∀ a b : Nat,
      getSim (calculateBasicSimilarityMatrix courses) a b =
        getSim (calculateBasicSimilarityMatrix courses) b a := by
  intro a b
  rw [getSim_matrix, getSim_matrix]
  rcases h1 : lastCourseWithId courses a with _ | c1
  · rcases h2 : lastCourseWithId courses b with _ | c2 <;> rfl
  · rcases h2 : lastCourseWithId courses b with _ | c2
    · rfl
    · by_cases hab : a = b
      · subst hab
        rw [h1] at h2
        cases h2
        rfl
      · simp only [if_neg hab, if_neg (Ne.symm hab)]
        have m1 : c1 ∈ courses :=
          List.mem_reverse.mp (List.mem_of_find?_eq_some h1)
        have m2 : c2 ∈ courses :=
          List.mem_reverse.mp (List.mem_of_find?_eq_some h2)
        exact calculateFastSimilarity_comm_of_nodup (hnd c1 m1) (hnd c2 m2)

/-- C8 witness: a duplicate-free catalog satisfies the amended symmetry
statement. -/
theorem C8_witness :
    getSim (calculateBasicSimilarityMatrix
        [{ CourseBasicDataId := 1, CustomName := "red car", Status := 1 },
         { CourseBasicDataId := 2, CustomName := "red bus", Status := 2 }]) 1 2 =
      getSim (calculateBasicSimilarityMatrix
        [{ CourseBasicDataId := 1, CustomName := "red car", Status := 1 },
         { CourseBasicDataId := 2, CustomName := "red bus", Status := 2 }]) 2 1 :=
  C8_symmetry_amended _ (by decide) 1 2

/-! ## Claim C1 -/

theorem foldl_max_push (g : Nat → ℚ) :
    ∀ (l : List Nat) (a b : ℚ),
      l.foldl (fun m e => max m (g e)) (max a b) =
        max a (l.foldl (fun m e => max m (g e)) b) := by
  intro l
  induction l with
  | nil => intro a b; rfl
  | cons x xs ih =>
    intro a b
    simp only [List.foldl_cons]
    rw [max_assoc, ih]

theorem foldl_max_eq_foldr_map (g : Nat → ℚ) :
    ∀ (l : List Nat) (init : ℚ),
      l.foldl (fun m e => max m (g e)) init = (l.map g).foldr max init := by
  intro l
  induction l with
  | nil => intro init; rfl
  | cons x xs ih =>
    intro init
    simp only [List.foldl_cons, List.map_cons, List.foldr_cons]
    rw [max_comm init (g x), foldl_max_push, ih]

theorem foldr_max_zero_nonneg : ∀ l : List ℚ, 0 ≤ l.foldr max 0 := by
  intro l
  induction l with
  | nil => exact le_refl 0
  | cons x xs ih => exact le_trans ih (le_max_right x _)

theorem min_one_clamp {w : ℚ} (h : 0 ≤ w) : min w 1 = max 0 (min 1 w) := by
  rw [min_comm, max_eq_right]
  exact le_min zero_le_one h

/-- C1: for any set of enrolled course ids and any candidate course the
fast probability equals
clamp(0.1 + min(enrollmentCount/100, 0.3) + 0.5 * best enrolled
similarity (0 when nothing is enrolled) + 0.2 status-1 bonus, 0, 1);
and on the worked-example dataset (Intro Python status 1 enrolled,
Advanced Python status 3 candidate with no enrollments) the probability
for candidate course 2 is 0.35. -/
theorem C1_probability_formula :
    (∀ (enrolledCourseIds : List Nat) (course : Course)
       (enrollments : List Enrollment) (courses : List Course),
      calculateFastRecommendationProbability enrolledCourseIds course enrollments
          (calculateBasicSimilarityMatrix courses) =
        max 0 (min 1 ((1 : ℚ)/10
          + min (((enrollments.filter
              (fun e => e.CourseId = course.CourseBasicDataId)).length : ℚ) / 100)
              (3/10)
          + (1/2) * ((enrolledCourseIds.map (fun e =>
              getSim (calculateBasicSimilarityMatrix courses)
                course.CourseBasicDataId e)).foldr max 0)
          + (if course.Status = 1 then (1 : ℚ)/5 else 0))))
    ∧ calculateFastRecommendationProbability [1]
        { CourseBasicDataId := 2, CustomName := "Advanced Python", Status := 3 }
        [{ MemberId := 100, CourseId := 1, EnrollmentDate := "2024-01-01" }]
        (calculateBasicSimilarityMatrix
          [{ CourseBasicDataId := 1, CustomName := "Intro Python", Status := 1 },
           { CourseBasicDataId := 2, CustomName := "Advanced Python", Status := 3 }]) =
      35/100 := by
  constructor
  · intro E course enrollments courses
    have hpop : (0 : ℚ) ≤ min (((enrollments.filter
        (fun e => e.CourseId = course.CourseBasicDataId)).length : ℚ) / 100) (3/10) := by
      apply le_min
      · positivity
      · norm_num
    have hfold : (0 : ℚ) ≤ (E.map (fun e =>
        getSim (calculateBasicSimilarityMatrix courses)
          course.CourseBasicDataId e)).foldr max 0 :=
      foldr_max_zero_nonneg _
    have hbonus : (0 : ℚ) ≤ (if course.Status = 1 then (1 : ℚ)/5 else 0) := by
      split <;> norm_num
    by_cases hE : E.length > 0
    · unfold calculateFastRecommendationProbability
      dsimp only
      rw [if_pos hE, foldl_max_eq_foldr_map]
      rw [min_one_clamp (by
        split <;> nlinarith [hpop, hfold])]
      split <;> ring_nf
    · unfold calculateFastRecommendationProbability
      dsimp only
      rw [if_neg hE]
      have hEnil : E = [] := by
        cases E with
        | nil => rfl
        | cons x xs => exact absurd (Nat.succ_pos xs.length) hE
      subst hEnil
      simp only [List.map_nil, List.foldr_nil]
      rw [min_one_clamp (by
        split <;> nlinarith [hpop])]
      split <;> ring_nf
  · simp +decide only [calculateFastRecommendationProbability, getSim,
      calculateBasicSimilarityMatrix, buildSimRow, objSet, objGet, tokenize,
      splitWsAux, calculateFastSimilarity, List.foldl, List.filter, List.find?,
      List.map, List.length, List.reverse, List.reverseAux, Char.isWhitespace]
    norm_num

/-! ## Claim C5 -/

/-- C5: the sanitizer keeps courses and trainees unchanged, restricts
enrollments to exactly those whose CourseId occurs among the course
ids (so every surviving enrollment references an existing course), and
an empty course list leaves no enrollments. The embedding is a pure
function, so the input dataset is untouched by construction. -/
theorem C5_cleanDataIntegrity (data : Dataset) :
    (cleanDataIntegrity data).courses = data.courses
    ∧ (cleanDataIntegrity data).trainees = data.trainees
    ∧ (cleanDataIntegrity data).enrollments =
        data.enrollments.filter (fun e =>
          e.CourseId ∈ data.courses.map (fun c => c.CourseBasicDataId))
    ∧ (∀ e ∈ (cleanDataIntegrity data).enrollments,
        e.CourseId ∈ data.courses.map (fun c => c.CourseBasicDataId))
    ∧ (data.courses = [] → (cleanDataIntegrity data).enrollments = []) := by
  refine ⟨rfl, rfl, rfl, ?_, ?_⟩
  · intro e he
    have := List.of_mem_filter he
    simpa using this
  · intro hc
    unfold cleanDataIntegrity
    rw [hc]
    simp

/-- C5 witness: a dataset with no courses sanitizes to an empty
enrollment list; the orphan enrollment referencing course 7 is gone. -/
theorem C5_witness :
    (cleanDataIntegrity
      { courses := []
        trainees := []
        enrollments := [{ MemberId := 1, CourseId := 7, EnrollmentDate := "d" }] }).enrollments
      = [] :=
  (C5_cleanDataIntegrity _).2.2.2.2 rfl

/-! ## Claim C3 -/

theorem pairwise_desc_mergeSort_take {α : Type} (f : α → ℚ) (l : List α) (n : Nat) :
    List.Pairwise (fun a b => f b ≤ f a)
      ((l.mergeSort (fun a b => decide (f b ≤ f a))).take n) := by
  apply List.Pairwise.sublist (List.take_sublist n _)
  have htrans : ∀ a b c : α, (decide (f b ≤ f a)) = true →
      (decide (f c ≤ f b)) = true → (decide (f c ≤ f a)) = true := by
    intro a b c hab hbc
    simp only [decide_eq_true_eq] at *
    exact le_trans hbc hab
  have htotal : ∀ a b : α,
      ((decide (f b ≤ f a)) || (decide (f a ≤ f b))) = true := by
    intro a b
    simp only [Bool.or_eq_true, decide_eq_true_eq]
    exact le_total (f b) (f a)
  have h := @List.sorted_mergeSort α (fun a b => decide (f b ≤ f a)) htrans htotal l
  exact h.imp (fun hab => of_decide_eq_true hab)

theorem mem_of_mem_mergeSort_take {α : Type} {le : α → α → Bool} {l : List α}
    {n : Nat} {x : α} (h : x ∈ (l.mergeSort le).take n) : x ∈ l :=
  (List.mergeSort_perm l le).mem_iff.mp ((List.take_sublist n _).subset h)

theorem findTopSimilarCourses_spec (courseId : Nat) (E : List Nat)
    (courses : List Course) (matrix : SimMatrix) :
    (findTopSimilarCourses courseId E courses matrix).length ≤ 2
    ∧ List.Pairwise (fun a b => b.similarity ≤ a.similarity)
        (findTopSimilarCourses courseId E courses matrix)
    ∧ ∀ s ∈ findTopSimilarCourses courseId E courses matrix,
        s.courseId ∈ E ∧ 1/10 < getSim matrix courseId s.courseId := by
  refine ⟨?_, ?_, ?_⟩
  · unfold findTopSimilarCourses
    dsimp only
    rw [List.length_take]
    exact min_le_left 2 _
  · unfold findTopSimilarCourses
    dsimp only
    exact pairwise_desc_mergeSort_take (fun s : SimilarCourse => s.similarity) _ 2
  · intro s hs
    unfold findTopSimilarCourses at hs
    dsimp only at hs
    have hmem := mem_of_mem_mergeSort_take hs
    rw [List.mem_filterMap] at hmem
    obtain ⟨e, heE, hbody⟩ := hmem
    by_cases hgt : getSim matrix courseId e > 1/10
    · rw [if_pos hgt] at hbody
      rw [Option.map_eq_some'] at hbody
      obtain ⟨ec, _, hrec⟩ := hbody
      have hid : s.courseId = e := by rw [← hrec]
      rw [hid]
      exact ⟨heE, hgt⟩
    · rw [if_neg hgt] at hbody
      cases hbody

/-- C3: the per-trainee recommendation list only contains courses the
trainee is not enrolled in, each kept candidate scored at least
minProbability (the stored probability field is that score rounded to
two decimals), the list is sorted descending by the stored probability
and truncated to maxRecommendations, and each entry's similarCourses
holds at most two enrolled courses, each with raw similarity above 0.1,
sorted descending by the stored similarity. -/
theorem C3_recommendation_list (trainee : Trainee) (courses : List Course)
    (enrollments : List Enrollment) (matrix : SimMatrix) (options : RecOptions) :
    (generateTraineeRecommendations trainee courses enrollments matrix options).length
        ≤ options.maxRecommendations
    ∧ List.Pairwise (fun a b => b.probability ≤ a.probability)
        (generateTraineeRecommendations trainee courses enrollments matrix options)
    ∧ ∀ r ∈ generateTraineeRecommendations trainee courses enrollments matrix options,
        r.courseId ∉ (enrollments.filter
            (fun e => e.MemberId = trainee.MemberId)).map (fun e => e.CourseId)
        ∧ (∃ c ∈ courses, r.courseId = c.CourseBasicDataId ∧
            options.minProbability ≤ calculateFastRecommendationProbability
              ((enrollments.filter (fun e => e.MemberId = trainee.MemberId)).map
                (fun e => e.CourseId)) c enrollments matrix ∧
            r.probability = round2 (calculateFastRecommendationProbability
              ((enrollments.filter (fun e => e.MemberId = trainee.MemberId)).map
                (fun e => e.CourseId)) c enrollments matrix))
        ∧ r.similarCourses.length ≤ 2
        ∧ List.Pairwise (fun a b => b.similarity ≤ a.similarity) r.similarCourses
        ∧ ∀ s ∈ r.similarCourses,
            s.courseId ∈ (enrollments.filter
              (fun e => e.MemberId = trainee.MemberId)).map (fun e => e.CourseId)
            ∧ 1/10 < getSim matrix r.courseId s.courseId := by
  refine ⟨?_, ?_, ?_⟩
  · unfold generateTraineeRecommendations
    dsimp only
    rw [List.length_take]
    exact min_le_left _ _
  · unfold generateTraineeRecommendations
    dsimp only
    exact pairwise_desc_mergeSort_take (fun r : Recommendation => r.probability) _ _
  · intro r hr
    unfold generateTraineeRecommendations at hr
    dsimp only at hr
    have hmem := mem_of_mem_mergeSort_take hr
    rw [List.mem_filterMap] at hmem
    obtain ⟨course, hcourse, hbody⟩ := hmem
    by_cases hin : course.CourseBasicDataId ∈
        (enrollments.filter (fun e => e.MemberId = trainee.MemberId)).map
          (fun e => e.CourseId)
    · rw [if_pos hin] at hbody
      cases hbody
    · rw [if_neg hin] at hbody
      by_cases hp : calculateFastRecommendationProbability
          ((enrollments.filter (fun e => e.MemberId = trainee.MemberId)).map
            (fun e => e.CourseId)) course enrollments matrix ≥ options.minProbability
      · rw [if_pos hp] at hbody
        rw [Option.some_inj] at hbody
        subst hbody
        refine ⟨hin, ⟨course, hcourse, rfl, hp, rfl⟩, ?_, ?_, ?_⟩
        · dsimp only
          split
          · exact (findTopSimilarCourses_spec _ _ _ _).1
          · simp
        · dsimp only
          split
          · exact (findTopSimilarCourses_spec _ _ _ _).2.1
          · simp
        · dsimp only
          split
          · intro s hs
            exact (findTopSimilarCourses_spec _ _ _ _).2.2 s hs
          · intro s hs
            simp at hs
      · rw [if_neg hp] at hbody
        cases hbody

/-- Fixture course for the C3 witness. -/
def soloCourse : Course :=
  { CourseBasicDataId := 5, CustomName := "solo", Status := 2 }

/-- Fixture trainee for the C3 witness. -/
def soloTrainee : Trainee :=
  { MemberId := 9, Name := "B", FirstName := "", LastName := "", Email := "",
    Phone := "" }

/-- Fixture options for the C3 witness. -/
def soloOptions : RecOptions :=
  { maxRecommendations := 3, minProbability := 0, includeExplanations := false }

/-- The one recommendation produced on the C3 witness fixture. -/
def soloRec : Recommendation :=
  { courseId := 5, courseName := "solo", courseStatus := 2, probability := 1/10,
    explanation := none, similarCourses := [] }

/-- C3 witness: on a one-course catalog with no enrollments the single
produced recommendation satisfies every per-entry property. -/
theorem C3_witness :
    soloRec.courseId ∉ (([] : List Enrollment).filter
        (fun e => e.MemberId = soloTrainee.MemberId)).map (fun e => e.CourseId)
    ∧ (∃ c ∈ [soloCourse], soloRec.courseId = c.CourseBasicDataId ∧
        soloOptions.minProbability ≤ calculateFastRecommendationProbability
          ((([] : List Enrollment).filter
            (fun e => e.MemberId = soloTrainee.MemberId)).map (fun e => e.CourseId))
          c [] [] ∧
        soloRec.probability = round2 (calculateFastRecommendationProbability
          ((([] : List Enrollment).filter
            (fun e => e.MemberId = soloTrainee.MemberId)).map (fun e => e.CourseId))
          c [] []))
    ∧ soloRec.similarCourses.length ≤ 2
    ∧ List.Pairwise (fun a b => b.similarity ≤ a.similarity) soloRec.similarCourses
    ∧ ∀ s ∈ soloRec.similarCourses,
        s.courseId ∈ (([] : List Enrollment).filter
          (fun e => e.MemberId = soloTrainee.MemberId)).map (fun e => e.CourseId)
        ∧ 1/10 < getSim [] soloRec.courseId s.courseId := by
  have hm : soloRec ∈
      generateTraineeRecommendations soloTrainee [soloCourse] [] [] soloOptions := by
    unfold generateTraineeRecommendations soloRec soloTrainee soloCourse soloOptions
    norm_num [calculateFastRecommendationProbability, round2, jsRound, List.filterMap]
  exact (C3_recommendation_list soloTrainee [soloCourse] [] [] soloOptions).2.2 _ hm

/-! ## Claim C4 -/

theorem stage_filter_eq (cond : Bool) (p : Trainee → Bool) (l : List Trainee) :
    (if cond then l.filter p else l) = l.filter (fun t => !cond || p t) := by
  cases cond
  · simp
  · simp

/-- Modelled from the spec, section 4.3: the conjunction of all active
filter predicates (an inactive filter contributes true). The name
predicate follows the code: the term may match the Name, FirstName or
LastName field. -/
def specActivePredicate (f : TraineeFilters) (t : Trainee) : Bool :=
  ((!f.minEnrollments.isSome ||
      f.minEnrollments.getD 0 ≤ getTraineeEnrollmentCount t.MemberId f.enrollments) &&
   (!f.maxEnrollments.isSome ||
      getTraineeEnrollmentCount t.MemberId f.enrollments ≤ f.maxEnrollments.getD 0)) &&
  ((!enrolledInCourseActive f ||
      traineeEnrolledInCourses t.MemberId (f.enrolledInCourse.getD []) f.enrollments) &&
   ((!f.hasEnrollments.isSome ||
       decide (traineeHasEnrollments t.MemberId f.enrollments = f.hasEnrollments.getD false)) &&
    ((!phoneSearchActive f || jsIncludes t.Phone (jsTrim (f.phoneSearch.getD ""))) &&
     ((!emailSearchActive f ||
         jsIncludes (jsToLower t.Email) (jsTrim (jsToLower (f.emailSearch.getD "")))) &&
      (!nameSearchActive f ||
         nameMatches (jsTrim (jsToLower (f.nameSearch.getD ""))) t)))))

/-- Normal form of the filter pipeline: one filter by the conjunction
of the active predicates, then sampling, then the maxResults cap. -/
theorem applyTraineeFilters_eq (shuffle : List Trainee → List Trainee)
    (trainees : List Trainee) (f : TraineeFilters) :
    applyTraineeFilters shuffle trainees f =
      (if !f.randomSample && maxResultsActive f then
        (if randomSampleActive f then
          (shuffle (trainees.filter (specActivePredicate f))).take
            (f.randomSampleSize.getD 0)
         else trainees.filter (specActivePredicate f)).take (f.maxResults.getD 0)
       else
        (if randomSampleActive f then
          (shuffle (trainees.filter (specActivePredicate f))).take
            (f.randomSampleSize.getD 0)
         else trainees.filter (specActivePredicate f))) := by
  unfold applyTraineeFilters
  dsimp only
  rw [stage_filter_eq (nameSearchActive f)]
  rw [stage_filter_eq (emailSearchActive f)]
  rw [stage_filter_eq (phoneSearchActive f)]
  rw [stage_filter_eq f.hasEnrollments.isSome]
  rw [stage_filter_eq (enrolledInCourseActive f)]
  rw [stage_filter_eq (f.minEnrollments.isSome || f.maxEnrollments.isSome)]
  simp only [List.filter_filter]
  have hraw : trainees.filter (fun a =>
      (!(f.minEnrollments.isSome || f.maxEnrollments.isSome) ||
        ((!f.minEnrollments.isSome ||
            f.minEnrollments.getD 0 ≤ getTraineeEnrollmentCount a.MemberId f.enrollments) &&
         (!f.maxEnrollments.isSome ||
            getTraineeEnrollmentCount a.MemberId f.enrollments ≤ f.maxEnrollments.getD 0))) &&
      ((!enrolledInCourseActive f ||
          traineeEnrolledInCourses a.MemberId (f.enrolledInCourse.getD []) f.enrollments) &&
       ((!f.hasEnrollments.isSome ||
           decide (traineeHasEnrollments a.MemberId f.enrollments = f.hasEnrollments.getD false)) &&
        ((!phoneSearchActive f || jsIncludes a.Phone (jsTrim (f.phoneSearch.getD ""))) &&
         ((!emailSearchActive f ||
             jsIncludes (jsToLower a.Email) (jsTrim (jsToLower (f.emailSearch.getD "")))) &&
          (!nameSearchActive f ||
             nameMatches (jsTrim (jsToLower (f.nameSearch.getD ""))) a)))))) =
      trainees.filter (specActivePredicate f) := by
    apply List.filter_congr
    intro t _
    unfold specActivePredicate
    cases hmin : f.minEnrollments <;> cases hmax : f.maxEnrollments <;> simp
  rw [hraw]

/-- C4: the filter pipeline returns exactly the trainees satisfying
the conjunction of the active predicates; with random sampling of size
N at most the filtered size the output is N distinct members of that
subset (the maxResults cap is not consulted); without sampling a
positive maxResults truncates the filtered subset to its first
maxResults members. -/
theorem C4_filter_pipeline (shuffle : List Trainee → List Trainee)
    (trainees : List Trainee) (f : TraineeFilters)
    (hperm : ∀ l, (shuffle l).Perm l) (hnd : trainees.Nodup) :
    (f.randomSample = false → maxResultsActive f = false →
      applyTraineeFilters shuffle trainees f =
        trainees.filter (specActivePredicate f))
    ∧ (f.randomSample = false → ∀ m, f.maxResults = some m → 0 < m →
        applyTraineeFilters shuffle trainees f =
          (trainees.filter (specActivePredicate f)).take m)
    ∧ (∀ N, f.randomSample = true → f.randomSampleSize = some N → N ≠ 0 →
        N ≤ (trainees.filter (specActivePredicate f)).length →
        (applyTraineeFilters shuffle trainees f).length = N
        ∧ (applyTraineeFilters shuffle trainees f).Nodup
        ∧ ∀ x ∈ applyTraineeFilters shuffle trainees f,
            x ∈ trainees.filter (specActivePredicate f)) := by
  rw [applyTraineeFilters_eq]
  refine ⟨?_, ?_, ?_⟩
  · intro hrs hmr
    have hrsa : randomSampleActive f = false := by
      unfold randomSampleActive
      rw [hrs]
      rfl
    rw [hrsa, hmr]
    simp
  · intro hrs m hm hmpos
    have hrsa : randomSampleActive f = false := by
      unfold randomSampleActive
      rw [hrs]
      rfl
    have hmr : maxResultsActive f = true := by
      unfold maxResultsActive
      rw [hm]
      simp [hmpos]
    rw [hrsa, hrs, hmr, hm]
    simp
  · intro N hrs hsz hN0 hNle
    have hrsa : randomSampleActive f = true := by
      unfold randomSampleActive
      rw [hrs, hsz]
      simp [hN0]
    rw [hrsa, hrs]
    simp only [Bool.not_true, Bool.false_and, if_neg (by simp : ¬ (false = true)),
      if_pos rfl, hsz, Option.getD_some]
    rw [if_pos trivial]
    have hlen : (shuffle (trainees.filter (specActivePredicate f))).length =
        (trainees.filter (specActivePredicate f)).length :=
      (hperm _).length_eq
    have hndS : (shuffle (trainees.filter (specActivePredicate f))).Nodup :=
      ((hperm _).symm).nodup (hnd.filter _)
    refine ⟨?_, ?_, ?_⟩
    · rw [List.length_take, hlen]
      exact Nat.min_eq_left hNle
    · exact (List.take_sublist _ _).nodup hndS
    · intro x hx
      exact (hperm _).subset ((List.take_sublist _ _).subset hx)

/-- C4 witness: on a three-trainee fixture a random sample of size two
drawn through a reversing shuffle returns two distinct members of the
filtered subset. -/
theorem C4_witness :
    (applyTraineeFilters List.reverse
      [{ MemberId := 1, Name := "a", FirstName := "", LastName := "", Email := "",
         Phone := "" },
       { MemberId := 2, Name := "b", FirstName := "", LastName := "", Email := "",
         Phone := "" },
       { MemberId := 3, Name := "c", FirstName := "", LastName := "", Email := "",
         Phone := "" }]
      { nameSearch := none, emailSearch := none, phoneSearch := none,
        hasEnrollments := none, enrolledInCourse := none, minEnrollments := none,
        maxEnrollments := none, randomSample := true, randomSampleSize := some 2,
        maxResults := some 1, enrollments := [] }).length = 2 := by
  exact ((C4_filter_pipeline List.reverse _ _
    (fun l => l.reverse_perm) (by decide)).2.2 2 rfl rfl (by decide) (by decide)).1

/-! ## Executor trace characterization -/

/-- The events of the inner trainee loop when every scoring call
succeeds with the pure scorer g. -/
def flatTrace (cleaned : Dataset) (total : Nat) (now : String)
    (g : Trainee → List Recommendation) : Nat → List Trainee → List Ev
  | _, [] => []
  | globalIndex, t :: ts =>
    traineeStartEv total globalIndex ::
      traineeCompleteEv total (globalIndex + 1) (mkTraineeResult cleaned now t (g t)) ::
      flatTrace cleaned total now g (globalIndex + 1) ts

/-- The events of the chunk loop when every scoring call succeeds. -/
def chunkTrace (cleaned : Dataset) (total : Nat) (now : String)
    (g : Trainee → List Recommendation) : Nat → List (List Trainee) → List Ev
  | _, [] => []
  | processed, chunk :: rest =>
    chunkStartEv total processed ::
      (flatTrace cleaned total now g processed chunk ++
        chunkCompleteEv total (processed + chunk.length) ::
          chunkTrace cleaned total now g (processed + chunk.length) rest)

theorem runFlat_ok (cleaned : Dataset) (total : Nat) (now : String)
    (g : Trainee → List Recommendation) :
    ∀ (l : List Trainee) (globalIndex : Nat),
      runFlat (fun t => .ok (g t)) cleaned total now globalIndex l =
        (flatTrace cleaned total now g globalIndex l,
         .ok (l.map (fun t => mkTraineeResult cleaned now t (g t)))) := by
  intro l
  induction l with
  | nil => intro gi; rfl
  | cons t ts ih =>
    intro gi
    simp only [runFlat, flatTrace, List.map_cons]
    rw [ih (gi + 1)]

theorem runChunks_ok (cleaned : Dataset) (total : Nat) (now : String)
    (g : Trainee → List Recommendation) :
    ∀ (chunks : List (List Trainee)) (processed : Nat),
      runChunks (fun t => .ok (g t)) cleaned total now processed chunks =
        (chunkTrace cleaned total now g processed chunks,
         .ok (chunks.flatten.map (fun t => mkTraineeResult cleaned now t (g t)))) := by
  intro chunks
  induction chunks with
  | nil => intro p; rfl
  | cons chunk rest ih =>
    intro p
    simp only [runChunks, chunkTrace, List.flatten_cons, List.map_append]
    rw [runFlat_ok, ih (p + chunk.length)]
    rfl

theorem chunkList_flatten_aux {α : Type} :
    ∀ (len n : Nat) (l : List α), l.length ≤ len → 0 < n →
      (chunkList n l).flatten = l := by
  intro len
  induction len with
  | zero =>
    intro n l hl hn
    have hnil : l = [] := List.eq_nil_of_length_eq_zero (Nat.le_zero.mp hl)
    subst hnil
    simp [chunkList]
  | succ k ih =>
    intro n l hl hn
    match n, l with
    | n, [] => simp [chunkList]
    | 0, l => exact absurd hn (by omega)
    | m+1, x :: xs =>
      simp only [chunkList, List.flatten_cons]
      rw [ih (m+1) ((x :: xs).drop (m+1)) (by
        simp only [List.length_drop, List.length_cons]
        simp only [List.length_cons] at hl
        omega) (by omega)]
      exact List.take_append_drop (m+1) (x :: xs)

theorem chunkList_flatten {α : Type} (n : Nat) (l : List α) (hn : 0 < n) :
    (chunkList n l).flatten = l :=
  chunkList_flatten_aux l.length n l le_rfl hn

/-! ## Progress-value lemmas -/

theorem jsRound_20_add (x : ℚ) : jsRound (20 + x) = 20 + jsRound x := by
  unfold jsRound
  rw [show ((20 : ℚ)) = ((20 : Nat) : ℚ) by norm_num, round_nat_add]
  norm_num

theorem jsRound_mono {x y : ℚ} (h : x ≤ y) : jsRound x ≤ jsRound y := by
  unfold jsRound
  rw [round_eq, round_eq]
  exact Int.floor_le_floor (by linarith)

theorem progVal_eq_claim (p t : Nat) :
    progVal p t = 20 + jsRound (((p : ℚ) / (t : ℚ)) * 70) := by
  unfold progVal
  exact jsRound_20_add _

theorem progVal_mono {p q : Nat} (t : Nat) (h : p ≤ q) : progVal p t ≤ progVal q t := by
  unfold progVal
  apply jsRound_mono
  rcases Nat.eq_zero_or_pos t with ht | ht
  · subst ht
    norm_num
  · have ht0 : (0 : ℚ) < (t : ℚ) := by exact_mod_cast ht
    have hpq : ((p : ℚ)) ≤ ((q : ℚ)) := by exact_mod_cast h
    have hdiv : ((p : ℚ)) / t ≤ ((q : ℚ)) / t := by gcongr
    linarith [hdiv]

theorem progVal_zero_total (p : Nat) : progVal p 0 = 20 := by
  unfold progVal jsRound
  norm_num

theorem progVal_self (t : Nat) (ht : 0 < t) : progVal t t = 90 := by
  unfold progVal jsRound
  have ht0 : ((t : ℚ)) ≠ 0 := by exact_mod_cast Nat.pos_iff_ne_zero.mp ht
  rw [div_self ht0]
  norm_num

theorem progVal_le_90 {p t : Nat} (h : p ≤ t) : progVal p t ≤ 90 := by
  rcases Nat.eq_zero_or_pos t with ht | ht
  · subst ht
    rw [progVal_zero_total]
    norm_num
  · calc progVal p t ≤ progVal t t := progVal_mono t h
      _ = 90 := progVal_self t ht

theorem progVal_ge_20 (p t : Nat) : 20 ≤ progVal p t := by
  rcases Nat.eq_zero_or_pos t with ht | ht
  · subst ht
    rw [progVal_zero_total]
  · calc (20 : ℤ) = progVal 0 t := by
          unfold progVal jsRound
          norm_num
      _ ≤ progVal p t := progVal_mono t (Nat.zero_le p)

/-! ## Progress coherence -/

/-- Number of trainee_complete events in a trace: the number of
trainees fully processed over that stretch of the stream. -/
def countTC (evs : List Ev) : Nat :=
  evs.countP (fun e => e.kind = .traineeComplete)

/-- Chunk-level or trainee-level work event. -/
def isWorkEv (e : Ev) : Prop :=
  e.kind = .chunkStart ∨ e.kind = .traineeStart ∨
    e.kind = .traineeComplete ∨ e.kind = .chunkComplete

/-- Every work event at position k of the trace reports, as its
processedTrainees field, the base count plus the number of
trainee_complete events in the stream up to and including itself, and
as its progress, the chunked progress formula at that count. -/
def ProgressCoherent (total c0 : Nat) (evs : List Ev) : Prop :=
  ∀ (k : Nat) (h : k < evs.length),
    isWorkEv (evs.get ⟨k, h⟩) →
      (evs.get ⟨k, h⟩).processedTrainees = some (c0 + countTC (evs.take (k+1))) ∧
      (evs.get ⟨k, h⟩).progress = some (progVal (c0 + countTC (evs.take (k+1))) total)

theorem countTC_append (a b : List Ev) : countTC (a ++ b) = countTC a + countTC b :=
  List.countP_append _ a b

theorem ProgressCoherent_nil (total c0 : Nat) : ProgressCoherent total c0 [] := by
  intro k h
  exact absurd h (by simp)

theorem ProgressCoherent_append {total c0 : Nat} {a b : List Ev}
    (ha : ProgressCoherent total c0 a)
    (hb : ProgressCoherent total (c0 + countTC a) b) :
    ProgressCoherent total c0 (a ++ b) := by
  intro k h hw
  by_cases hk : k < a.length
  · have hget : (a ++ b).get ⟨k, h⟩ = a.get ⟨k, hk⟩ := by
      rw [List.get_eq_getElem, List.get_eq_getElem]
      exact List.getElem_append_left hk
    have htake : (a ++ b).take (k+1) = a.take (k+1) :=
      List.take_append_of_le_length (by omega)
    rw [hget, htake]
    rw [hget] at hw
    exact ha k hk hw
  · push_neg at hk
    have hkb : k - a.length < b.length := by
      have := h
      rw [List.length_append] at this
      omega
    have hget : (a ++ b).get ⟨k, h⟩ = b.get ⟨k - a.length, hkb⟩ := by
      rw [List.get_eq_getElem, List.get_eq_getElem]
      exact List.getElem_append_right hk
    have htake : (a ++ b).take (k+1) = a ++ b.take (k+1 - a.length) := by
      rw [List.take_append_eq_append_take, List.take_of_length_le (by omega)]
    rw [hget, htake, countTC_append]
    have harith : k + 1 - a.length = (k - a.length) + 1 := by omega
    rw [harith]
    rw [hget] at hw
    have := hb (k - a.length) hkb hw
    rw [← Nat.add_assoc]
    exact this

theorem ProgressCoherent_single_work {total c0 : Nat} {ev : Ev}
    (hkind : ev.kind ≠ EvKind.traineeComplete)
    (hp : ev.processedTrainees = some c0)
    (hg : ev.progress = some (progVal c0 total)) :
    ProgressCoherent total c0 [ev] := by
  intro k h _
  have hk0 : k = 0 := by
    simp only [List.length_singleton] at h
    omega
  subst hk0
  have hcount : countTC ([ev].take 1) = 0 := by
    simp [countTC, List.countP_cons, hkind]
  rw [hcount]
  simpa using ⟨hp, hg⟩

theorem ProgressCoherent_single_tc {total c0 : Nat} {ev : Ev}
    (hkind : ev.kind = EvKind.traineeComplete)
    (hp : ev.processedTrainees = some (c0 + 1))
    (hg : ev.progress = some (progVal (c0 + 1) total)) :
    ProgressCoherent total c0 [ev] := by
  intro k h _
  have hk0 : k = 0 := by
    simp only [List.length_singleton] at h
    omega
  subst hk0
  have hcount : countTC ([ev].take 1) = 1 := by
    simp [countTC, List.countP_cons, hkind]
  rw [hcount]
  simpa using ⟨hp, hg⟩

theorem countTC_flatTrace (cleaned : Dataset) (total : Nat) (now : String)
    (g : Trainee → List Recommendation) :
    ∀ (l : List Trainee) (gi : Nat),
      countTC (flatTrace cleaned total now g gi l) = l.length := by
  intro l
  induction l with
  | nil => intro gi; rfl
  | cons t ts ih =>
    intro gi
    show countTC (traineeStartEv total gi :: traineeCompleteEv total (gi + 1) _ ::
      flatTrace cleaned total now g (gi + 1) ts) = ts.length + 1
    simp only [countTC, List.countP_cons] at *
    rw [ih (gi + 1)]
    simp [traineeStartEv, traineeCompleteEv]

theorem ProgressCoherent_flatTrace (cleaned : Dataset) (total : Nat) (now : String)
    (g : Trainee → List Recommendation) :
    ∀ (l : List Trainee) (gi : Nat),
      ProgressCoherent total gi (flatTrace cleaned total now g gi l) := by
  intro l
  induction l with
  | nil => intro gi; exact ProgressCoherent_nil total gi
  | cons t ts ih =>
    intro gi
    show ProgressCoherent total gi ([traineeStartEv total gi] ++
      ([traineeCompleteEv total (gi + 1) (mkTraineeResult cleaned now t (g t))] ++
        flatTrace cleaned total now g (gi + 1) ts))
    apply ProgressCoherent_append
    · exact ProgressCoherent_single_work (by simp [traineeStartEv]) rfl rfl
    · have hc : countTC [traineeStartEv total gi] = 0 := by
        simp [countTC, traineeStartEv]
      rw [hc, Nat.add_zero]
      apply ProgressCoherent_append
      · exact ProgressCoherent_single_tc (by simp [traineeCompleteEv]) rfl rfl
      · have hc2 : countTC [traineeCompleteEv total (gi + 1)
            (mkTraineeResult cleaned now t (g t))] = 1 := by
          simp [countTC, traineeCompleteEv]
        rw [hc2]
        exact ih (gi + 1)

theorem countTC_chunkTrace (cleaned : Dataset) (total : Nat) (now : String)
    (g : Trainee → List Recommendation) :
    ∀ (chunks : List (List Trainee)) (p : Nat),
      countTC (chunkTrace cleaned total now g p chunks) = chunks.flatten.length := by
  intro chunks
  induction chunks with
  | nil => intro p; rfl
  | cons chunk rest ih =>
    intro p
    show countTC (chunkStartEv total p :: (flatTrace cleaned total now g p chunk ++
      chunkCompleteEv total (p + chunk.length) ::
        chunkTrace cleaned total now g (p + chunk.length) rest)) = _
    simp only [countTC, List.countP_cons, List.countP_append] at *
    rw [ih (p + chunk.length)]
    have hft := countTC_flatTrace cleaned total now g chunk p
    simp only [countTC] at hft
    rw [hft]
    simp [chunkStartEv, chunkCompleteEv, List.flatten_cons]

theorem ProgressCoherent_chunkTrace (cleaned : Dataset) (total : Nat) (now : String)
    (g : Trainee → List Recommendation) :
    ∀ (chunks : List (List Trainee)) (p : Nat),
      ProgressCoherent total p (chunkTrace cleaned total now g p chunks) := by
  intro chunks
  induction chunks with
  | nil => intro p; exact ProgressCoherent_nil total p
  | cons chunk rest ih =>
    intro p
    show ProgressCoherent total p ([chunkStartEv total p] ++
      (flatTrace cleaned total now g p chunk ++
        ([chunkCompleteEv total (p + chunk.length)] ++
          chunkTrace cleaned total now g (p + chunk.length) rest)))
    apply ProgressCoherent_append
    · exact ProgressCoherent_single_work (by simp [chunkStartEv]) rfl rfl
    · have hc : countTC [chunkStartEv total p] = 0 := by
        simp [countTC, chunkStartEv]
      rw [hc, Nat.add_zero]
      apply ProgressCoherent_append
      · exact ProgressCoherent_flatTrace cleaned total now g chunk p
      · rw [countTC_flatTrace cleaned total now g chunk p]
        apply ProgressCoherent_append
        · exact ProgressCoherent_single_work (by simp [chunkCompleteEv]) rfl rfl
        · have hc2 : countTC [chunkCompleteEv total (p + chunk.length)] = 0 := by
            simp [countTC, chunkCompleteEv]
          rw [hc2, Nat.add_zero]
          exact ih (p + chunk.length)

/-! ## Top-level run characterization -/

/-- The pure scorer the engine runs (it cannot throw in the model). -/
def engineG (o : ChunkedOptions) (cleaned : Dataset) (matrix : SimMatrix)
    (t : Trainee) : List Recommendation :=
  generateTraineeRecommendations t cleaned.courses cleaned.enrollments matrix
    o.recOptions

theorem generateChunked_valid_eq (shuffle : List Trainee → List Trainee)
    (now : String) (cs : List Course) (ts : List Trainee) (es : List Enrollment)
    (o : ChunkedOptions) (hcs : 0 < o.chunkSize) :
    generateTraineeRecommendationsChunked shuffle now
        (some { courses := some cs, trainees := some ts, enrollments := some es }) o =
      (setupEvs ++
        chunkTrace (cleanDataIntegrity { courses := cs, trainees := ts, enrollments := es })
          (limitedTrainees shuffle { courses := cs, trainees := ts, enrollments := es } o).length
          now
          (engineG o (cleanDataIntegrity { courses := cs, trainees := ts, enrollments := es })
            (calculateBasicSimilarityMatrix
              (cleanDataIntegrity { courses := cs, trainees := ts, enrollments := es }).courses))
          0
          (chunkList o.chunkSize
            (limitedTrainees shuffle { courses := cs, trainees := ts, enrollments := es } o)) ++
        [completeEv],
       .ok ((limitedTrainees shuffle { courses := cs, trainees := ts, enrollments := es } o).map
          (fun t => mkTraineeResult
            (cleanDataIntegrity { courses := cs, trainees := ts, enrollments := es }) now t
            (engineG o (cleanDataIntegrity { courses := cs, trainees := ts, enrollments := es })
              (calculateBasicSimilarityMatrix
                (cleanDataIntegrity { courses := cs, trainees := ts, enrollments := es }).courses)
              t)))) := by
  unfold generateTraineeRecommendationsChunked generateChunkedWith runValidated
  dsimp only
  have hsc : engineScore o (cleanDataIntegrity { courses := cs, trainees := ts, enrollments := es })
      (calculateBasicSimilarityMatrix
        (cleanDataIntegrity { courses := cs, trainees := ts, enrollments := es }).courses) =
      fun t => Except.ok (engineG o
        (cleanDataIntegrity { courses := cs, trainees := ts, enrollments := es })
        (calculateBasicSimilarityMatrix
          (cleanDataIntegrity { courses := cs, trainees := ts, enrollments := es }).courses) t) :=
    rfl
  rw [hsc, runChunks_ok]
  rw [chunkList_flatten _ _ hcs]

theorem ProgressCoherent_of_no_work {total c0 : Nat} {evs : List Ev}
    (h : ∀ ev ∈ evs, ¬ isWorkEv ev) : ProgressCoherent total c0 evs := by
  intro k hk hw
  exact absurd hw (h _ (List.get_mem evs k hk))

theorem isWorkEv_flatTrace (cleaned : Dataset) (total : Nat) (now : String)
    (g : Trainee → List Recommendation) :
    ∀ (l : List Trainee) (gi : Nat), ∀ ev ∈ flatTrace cleaned total now g gi l,
      isWorkEv ev := by
  intro l
  induction l with
  | nil => intro gi ev hev; cases hev
  | cons t ts ih =>
    intro gi ev hev
    rcases List.mem_cons.mp hev with he | hev2
    · rw [he]
      right; left; rfl
    · rcases List.mem_cons.mp hev2 with he | hev3
      · rw [he]
        right; right; left; rfl
      · exact ih (gi + 1) ev hev3

theorem isWorkEv_chunkTrace (cleaned : Dataset) (total : Nat) (now : String)
    (g : Trainee → List Recommendation) :
    ∀ (chunks : List (List Trainee)) (p : Nat),
      ∀ ev ∈ chunkTrace cleaned total now g p chunks, isWorkEv ev := by
  intro chunks
  induction chunks with
  | nil => intro p ev hev; cases hev
  | cons chunk rest ih =>
    intro p ev hev
    rcases List.mem_cons.mp hev with he | hev2
    · rw [he]
      left; rfl
    · rcases List.mem_append.mp hev2 with h3 | h4
      · exact isWorkEv_flatTrace cleaned total now g chunk p ev h3
      · rcases List.mem_cons.mp h4 with he | hev5
        · rw [he]
          right; right; right; rfl
        · exact ih (p + chunk.length) ev hev5

/-! ## Claim C6 -/

/-- C6: in a run with a positive chunk size and at least one trainee in
the working set, every chunk-level and trainee-level event reports
progress 20 + round(processedTrainees / totalTrainees * 70), where the
event's processedTrainees field equals the number of trainee_complete
events emitted up to and including that point of the stream (the
number of fully processed trainees at the moment of emission); setup
and analysis events report progress at most 20; the complete event
reports progress 100. -/
theorem C6_progress_formula (shuffle : List Trainee → List Trainee) (now : String)
    (cs : List Course) (ts : List Trainee) (es : List Enrollment)
    (o : ChunkedOptions) (hcs : 0 < o.chunkSize)
    (htot : 0 < (limitedTrainees shuffle
      { courses := cs, trainees := ts, enrollments := es } o).length) :
    (∀ (k : Nat) (h : k < ((generateTraineeRecommendationsChunked shuffle now
        (some { courses := some cs, trainees := some ts, enrollments := some es })
        o).1).length),
      isWorkEv (((generateTraineeRecommendationsChunked shuffle now
          (some { courses := some cs, trainees := some ts, enrollments := some es })
          o).1).get ⟨k, h⟩) →
        (((generateTraineeRecommendationsChunked shuffle now
            (some { courses := some cs, trainees := some ts, enrollments := some es })
            o).1).get ⟨k, h⟩).processedTrainees =
          some (countTC (((generateTraineeRecommendationsChunked shuffle now
            (some { courses := some cs, trainees := some ts, enrollments := some es })
            o).1).take (k+1))) ∧
        (((generateTraineeRecommendationsChunked shuffle now
            (some { courses := some cs, trainees := some ts, enrollments := some es })
            o).1).get ⟨k, h⟩).progress =
          some (20 + jsRound (((countTC (((generateTraineeRecommendationsChunked shuffle now
              (some { courses := some cs, trainees := some ts, enrollments := some es })
              o).1).take (k+1)) : ℚ) /
            ((limitedTrainees shuffle
              { courses := cs, trainees := ts, enrollments := es } o).length : ℚ)) * 70)))
    ∧ (∀ ev ∈ (generateTraineeRecommendationsChunked shuffle now
        (some { courses := some cs, trainees := some ts, enrollments := some es })
        o).1,
        ev.kind = EvKind.initializing ∨ ev.kind = EvKind.courseAnalysis ∨
          ev.kind = EvKind.chunkingSetup →
        ∃ p, ev.progress = some p ∧ p ≤ 20)
    ∧ (∀ ev ∈ (generateTraineeRecommendationsChunked shuffle now
        (some { courses := some cs, trainees := some ts, enrollments := some es })
        o).1,
        ev.kind = EvKind.completed → ev.progress = some 100) := by
  have heq := generateChunked_valid_eq shuffle now cs ts es o hcs
  have hPC : ProgressCoherent
      (limitedTrainees shuffle { courses := cs, trainees := ts, enrollments := es } o).length
      0
      (generateTraineeRecommendationsChunked shuffle now
        (some { courses := some cs, trainees := some ts, enrollments := some es }) o).1 := by
    rw [heq, List.append_assoc]
    apply ProgressCoherent_append
    · apply ProgressCoherent_of_no_work
      intro ev hev
      simp only [setupEvs, List.mem_cons, List.not_mem_nil, or_false] at hev
      rcases hev with e1 | e2 | e3 <;>
        · subst_eqs
          intro hw
          rcases hw with h | h | h | h <;> cases h
    · have hc0 : countTC setupEvs = 0 := rfl
      rw [hc0, Nat.add_zero]
      apply ProgressCoherent_append
      · exact ProgressCoherent_chunkTrace _ _ _ _ _ 0
      · apply ProgressCoherent_of_no_work
        intro ev hev
        simp only [List.mem_singleton] at hev
        subst hev
        intro hw
        rcases hw with h | h | h | h <;> cases h
  refine ⟨?_, ?_, ?_⟩
  · intro k h hw
    have := hPC k h hw
    rw [Nat.zero_add] at this
    rw [this.1, this.2, progVal_eq_claim]
    exact ⟨rfl, rfl⟩
  · intro ev hev hkind
    rw [heq] at hev
    rcases List.mem_append.mp hev with h12 | h3
    · rcases List.mem_append.mp h12 with h1 | h2
      · simp only [setupEvs, List.mem_cons, List.not_mem_nil, or_false] at h1
        rcases h1 with e1 | e2 | e3
        · exact ⟨0, by rw [e1], by norm_num⟩
        · exact ⟨5, by rw [e2], by norm_num⟩
        · exact ⟨15, by rw [e3], by norm_num⟩
      · have hw := isWorkEv_chunkTrace _ _ _ _ _ _ ev h2
        rcases hkind with h | h | h <;>
          rcases hw with hw | hw | hw | hw <;> rw [h] at hw <;> cases hw
    · simp only [List.mem_singleton] at h3
      rw [h3] at hkind
      rcases hkind with h | h | h <;> cases h
  · intro ev hev hkind
    rw [heq] at hev
    rcases List.mem_append.mp hev with h12 | h3
    · rcases List.mem_append.mp h12 with h1 | h2
      · simp only [setupEvs, List.mem_cons, List.not_mem_nil, or_false] at h1
        rcases h1 with e1 | e2 | e3
        · rw [e1] at hkind; cases hkind
        · rw [e2] at hkind; cases hkind
        · rw [e3] at hkind; cases hkind
      · have hw := isWorkEv_chunkTrace _ _ _ _ _ _ ev h2
        rcases hw with hw | hw | hw | hw <;> rw [hkind] at hw <;> cases hw
    · simp only [List.mem_singleton] at h3
      rw [h3]
      rfl

/-- Fixture filters with nothing active. -/
def emptyFilters : TraineeFilters :=
  { nameSearch := none, emailSearch := none, phoneSearch := none,
    hasEnrollments := none, enrolledInCourse := none, minEnrollments := none,
    maxEnrollments := none, randomSample := false, randomSampleSize := none,
    maxResults := none, enrollments := [] }

/-- Fixture options for the executor witnesses. -/
def evFixtureOptions : ChunkedOptions :=
  { maxRecommendations := 5, minProbability := 1/10, includeExplanations := true,
    maxTrainees := 50, chunkSize := 20, traineeFilters := emptyFilters }

/-- C6 witness: the concrete one-trainee run satisfies the progress
formula statement. -/
theorem C6_witness :
    (∀ (k : Nat) (h : k < ((generateTraineeRecommendationsChunked (fun l => l) "t"
        (some { courses := some [soloCourse], trainees := some [soloTrainee],
                enrollments := some [] })
        evFixtureOptions).1).length),
      isWorkEv (((generateTraineeRecommendationsChunked (fun l => l) "t"
          (some { courses := some [soloCourse], trainees := some [soloTrainee],
                  enrollments := some [] })
          evFixtureOptions).1).get ⟨k, h⟩) →
        (((generateTraineeRecommendationsChunked (fun l => l) "t"
            (some { courses := some [soloCourse], trainees := some [soloTrainee],
                    enrollments := some [] })
            evFixtureOptions).1).get ⟨k, h⟩).processedTrainees =
          some (countTC (((generateTraineeRecommendationsChunked (fun l => l) "t"
            (some { courses := some [soloCourse], trainees := some [soloTrainee],
                    enrollments := some [] })
            evFixtureOptions).1).take (k+1))) ∧
        (((generateTraineeRecommendationsChunked (fun l => l) "t"
            (some { courses := some [soloCourse], trainees := some [soloTrainee],
                    enrollments := some [] })
            evFixtureOptions).1).get ⟨k, h⟩).progress =
          some (20 + jsRound (((countTC (((generateTraineeRecommendationsChunked (fun l => l) "t"
              (some { courses := some [soloCourse], trainees := some [soloTrainee],
                      enrollments := some [] })
              evFixtureOptions).1).take (k+1)) : ℚ) /
            ((limitedTrainees (fun l => l)
              { courses := [soloCourse], trainees := [soloTrainee], enrollments := [] }
              evFixtureOptions).length : ℚ)) * 70)))
    ∧ (∀ ev ∈ (generateTraineeRecommendationsChunked (fun l => l) "t"
        (some { courses := some [soloCourse], trainees := some [soloTrainee],
                enrollments := some [] })
        evFixtureOptions).1,
        ev.kind = EvKind.initializing ∨ ev.kind = EvKind.courseAnalysis ∨
          ev.kind = EvKind.chunkingSetup →
        ∃ p, ev.progress = some p ∧ p ≤ 20)
    ∧ (∀ ev ∈ (generateTraineeRecommendationsChunked (fun l => l) "t"
        (some { courses := some [soloCourse], trainees := some [soloTrainee],
                enrollments := some [] })
        evFixtureOptions).1,
        ev.kind = EvKind.completed → ev.progress = some 100) :=
  C6_progress_formula (fun l => l) "t" [soloCourse] [soloTrainee] [] evFixtureOptions
    (by decide) (by decide)

/-! ## Claim C10 -/

/-- The processedTrainees counts reported along the inner trainee loop. -/
def flatProcessed : Nat → List Trainee → List Nat
  | _, [] => []
  | g, _ :: ts => g :: (g + 1) :: flatProcessed (g + 1) ts

/-- The processedTrainees counts reported along the chunk loop. -/
def chunksProcessed : Nat → List (List Trainee) → List Nat
  | _, [] => []
  | p, c :: rest =>
    p :: (flatProcessed p c ++ (p + c.length) :: chunksProcessed (p + c.length) rest)

theorem flatTrace_progress (cleaned : Dataset) (total : Nat) (now : String)
    (g : Trainee → List Recommendation) :
    ∀ (l : List Trainee) (gi : Nat),
      (flatTrace cleaned total now g gi l).filterMap (fun e => e.progress) =
        (flatProcessed gi l).map (fun c => progVal c total) := by
  intro l
  induction l with
  | nil => intro gi; rfl
  | cons t ts ih =>
    intro gi
    simp only [flatTrace, flatProcessed, List.filterMap_cons, List.map_cons]
    rw [ih (gi + 1)]
    rfl

theorem chunkTrace_progress (cleaned : Dataset) (total : Nat) (now : String)
    (g : Trainee → List Recommendation) :
    ∀ (chunks : List (List Trainee)) (p : Nat),
      (chunkTrace cleaned total now g p chunks).filterMap (fun e => e.progress) =
        (chunksProcessed p chunks).map (fun c => progVal c total) := by
  intro chunks
  induction chunks with
  | nil => intro p; rfl
  | cons chunk rest ih =>
    intro p
    simp only [chunkTrace, chunksProcessed, List.filterMap_cons, List.filterMap_append,
      List.map_cons, List.map_append]
    rw [ih (p + chunk.length), flatTrace_progress]
    rfl

theorem flatProcessed_bounds :
    ∀ (l : List Trainee) (g : Nat), ∀ x ∈ flatProcessed g l,
      g ≤ x ∧ x ≤ g + l.length := by
  intro l
  induction l with
  | nil => intro g x hx; cases hx
  | cons t ts ih =>
    intro g x hx
    rcases List.mem_cons.mp hx with he | hx2
    · subst he
      simp
    · rcases List.mem_cons.mp hx2 with he | hx3
      · subst he
        simp only [List.length_cons]
        omega
      · have := ih (g + 1) x hx3
        simp only [List.length_cons]
        omega

theorem flatProcessed_pairwise :
    ∀ (l : List Trainee) (g : Nat),
      List.Pairwise (fun a b => a ≤ b) (flatProcessed g l) := by
  intro l
  induction l with
  | nil => intro g; exact List.Pairwise.nil
  | cons t ts ih =>
    intro g
    refine List.pairwise_cons.mpr ⟨?_, List.pairwise_cons.mpr ⟨?_, ih (g + 1)⟩⟩
    · intro x hx
      rcases List.mem_cons.mp hx with he | hx2
      · omega
      · have := (flatProcessed_bounds ts (g + 1) x hx2).1
        omega
    · intro x hx
      exact (flatProcessed_bounds ts (g + 1) x hx).1

theorem chunksProcessed_bounds :
    ∀ (chunks : List (List Trainee)) (p : Nat), ∀ x ∈ chunksProcessed p chunks,
      p ≤ x ∧ x ≤ p + chunks.flatten.length := by
  intro chunks
  induction chunks with
  | nil => intro p x hx; cases hx
  | cons chunk rest ih =>
    intro p x hx
    simp only [List.flatten_cons, List.length_append]
    rcases List.mem_cons.mp hx with he | hx2
    · subst he
      omega
    · rcases List.mem_append.mp hx2 with h3 | h4
      · have := flatProcessed_bounds chunk p x h3
        omega
      · rcases List.mem_cons.mp h4 with he | hx5
        · subst he
          omega
        · have := ih (p + chunk.length) x hx5
          omega

theorem chunksProcessed_pairwise :
    ∀ (chunks : List (List Trainee)) (p : Nat),
      List.Pairwise (fun a b => a ≤ b) (chunksProcessed p chunks) := by
  intro chunks
  induction chunks with
  | nil => intro p; exact List.Pairwise.nil
  | cons chunk rest ih =>
    intro p
    refine List.pairwise_cons.mpr ⟨?_, ?_⟩
    · intro x hx
      rcases List.mem_append.mp hx with h3 | h4
      · exact (flatProcessed_bounds chunk p x h3).1
      · rcases List.mem_cons.mp h4 with he | hx5
        · omega
        · have := (chunksProcessed_bounds rest (p + chunk.length) x hx5).1
          omega
    · rw [List.pairwise_append]
      refine ⟨flatProcessed_pairwise chunk p, ?_, ?_⟩
      · refine List.pairwise_cons.mpr ⟨?_, ih (p + chunk.length)⟩
        intro x hx
        exact (chunksProcessed_bounds rest (p + chunk.length) x hx).1
      · intro a ha b hb
        have hab := (flatProcessed_bounds chunk p a ha).2
        rcases List.mem_cons.mp hb with he | hb2
        · omega
        · have := (chunksProcessed_bounds rest (p + chunk.length) b hb2).1
          omega

theorem chunkTrace_event_progress (cleaned : Dataset) (total : Nat) (now : String)
    (g : Trainee → List Recommendation) :
    ∀ (chunks : List (List Trainee)) (p : Nat), ∀ ev ∈ chunkTrace cleaned total now g p chunks,
      ∃ c, ev.progress = some (progVal c total) ∧ p ≤ c ∧
        c ≤ p + chunks.flatten.length := by
  intro chunks
  induction chunks with
  | nil => intro p ev hev; cases hev
  | cons chunk rest ih =>
    intro p ev hev
    simp only [List.flatten_cons, List.length_append]
    rcases List.mem_cons.mp hev with he | hev2
    · subst he
      exact ⟨p, rfl, le_refl p, by omega⟩
    · rcases List.mem_append.mp hev2 with h3 | h4
      · -- event of the inner loop: mirror flatProcessed bounds
        have : ∃ c, ev.progress = some (progVal c total) ∧ p ≤ c ∧
            c ≤ p + chunk.length := by
          clear hev hev2 ih
          induction chunk generalizing p with
          | nil => cases h3
          | cons t ts ih2 =>
            rcases List.mem_cons.mp h3 with he | h5
            · subst he
              exact ⟨p, rfl, le_refl p, by simp⟩
            · rcases List.mem_cons.mp h5 with he | h6
              · subst he
                exact ⟨p + 1, rfl, by omega, by simp⟩
              · obtain ⟨c, hc1, hc2, hc3⟩ := ih2 (p + 1) h6
                exact ⟨c, hc1, by omega, by
                  simp only [List.length_cons]
                  omega⟩
        obtain ⟨c, hc1, hc2, hc3⟩ := this
        exact ⟨c, hc1, hc2, by omega⟩
      · rcases List.mem_cons.mp h4 with he | hev5
        · subst he
          exact ⟨p + chunk.length, rfl, by omega, by omega⟩
        · obtain ⟨c, hc1, hc2, hc3⟩ := ih (p + chunk.length) ev hev5
          exact ⟨c, hc1, by omega, by omega⟩

/-- C10: in a successful run the reported progress values are
monotonically non-decreasing along the event stream, the stream ends
with the complete event, every earlier event reports progress at most
90 (hence never 100), and only the terminal complete event reports
progress 100. -/
theorem C10_monotone_progress (shuffle : List Trainee → List Trainee) (now : String)
    (cs : List Course) (ts : List Trainee) (es : List Enrollment)
    (o : ChunkedOptions) (hcs : 0 < o.chunkSize) :
    List.Pairwise (fun a b => a ≤ b)
      (((generateTraineeRecommendationsChunked shuffle now
        (some { courses := some cs, trainees := some ts, enrollments := some es })
        o).1).filterMap (fun e => e.progress))
    ∧ ∃ body, (generateTraineeRecommendationsChunked shuffle now
          (some { courses := some cs, trainees := some ts, enrollments := some es })
          o).1 = body ++ [completeEv]
        ∧ (∀ ev ∈ body, ∃ p, ev.progress = some p ∧ p ≤ 90)
        ∧ (∀ ev ∈ body, ev.progress ≠ some 100)
        ∧ completeEv.progress = some 100 := by
  have heq := generateChunked_valid_eq shuffle now cs ts es o hcs
  have hflat : (chunkList o.chunkSize
      (limitedTrainees shuffle { courses := cs, trainees := ts, enrollments := es } o)).flatten =
      limitedTrainees shuffle { courses := cs, trainees := ts, enrollments := es } o :=
    chunkList_flatten _ _ hcs
  have hbody : ∀ ev ∈ setupEvs ++
      chunkTrace (cleanDataIntegrity { courses := cs, trainees := ts, enrollments := es })
        (limitedTrainees shuffle { courses := cs, trainees := ts, enrollments := es } o).length
        now
        (engineG o (cleanDataIntegrity { courses := cs, trainees := ts, enrollments := es })
          (calculateBasicSimilarityMatrix
            (cleanDataIntegrity { courses := cs, trainees := ts, enrollments := es }).courses))
        0
        (chunkList o.chunkSize
          (limitedTrainees shuffle { courses := cs, trainees := ts, enrollments := es } o)),
      ∃ p, ev.progress = some p ∧ p ≤ 90 := by
    intro ev hev
    rcases List.mem_append.mp hev with h1 | h2
    · simp only [setupEvs, List.mem_cons, List.not_mem_nil, or_false] at h1
      rcases h1 with e | e | e
      · exact ⟨0, by rw [e], by norm_num⟩
      · exact ⟨5, by rw [e], by norm_num⟩
      · exact ⟨15, by rw [e], by norm_num⟩
    · obtain ⟨c, hc1, _, hc3⟩ := chunkTrace_event_progress _ _ _ _ _ 0 ev h2
      rw [hflat, Nat.zero_add] at hc3
      exact ⟨_, hc1, progVal_le_90 hc3⟩
  constructor
  · rw [heq]
    show List.Pairwise _ (((setupEvs ++ _) ++ [completeEv]).filterMap _)
    rw [List.filterMap_append, List.filterMap_append]
    have hsetup : setupEvs.filterMap (fun e => e.progress) = [0, 5, 15] := rfl
    have hcomp : [completeEv].filterMap (fun e => e.progress) = [100] := rfl
    rw [hsetup, hcomp, chunkTrace_progress]
    rw [List.pairwise_append]
    refine ⟨?_, List.pairwise_singleton _ _, ?_⟩
    · rw [List.pairwise_append]
      refine ⟨by decide, ?_, ?_⟩
      · apply List.Pairwise.map (S := fun a b : ℤ => a ≤ b)
        · intro a b hab
          exact progVal_mono _ hab
        · exact chunksProcessed_pairwise _ 0
      · intro a ha b hb
        rw [List.mem_map] at hb
        obtain ⟨c, _, hc2⟩ := hb
        have h20 := progVal_ge_20 c
          (limitedTrainees shuffle
            { courses := cs, trainees := ts, enrollments := es } o).length
        simp only [List.mem_cons, List.not_mem_nil, or_false] at ha
        rcases ha with h | h | h <;> subst h <;> omega
    · intro a ha b hb
      simp only [List.mem_singleton] at hb
      subst hb
      rcases List.mem_append.mp ha with h1 | h2
      · simp only [List.mem_cons, List.not_mem_nil, or_false] at h1
        rcases h1 with h | h | h <;> subst h <;> norm_num
      · rw [List.mem_map] at h2
        obtain ⟨c, hc1, hc2⟩ := h2
        have hcb := (chunksProcessed_bounds _ 0 c hc1).2
        rw [hflat, Nat.zero_add] at hcb
        have := progVal_le_90 hcb
        omega
  · refine ⟨_, ?_, hbody, ?_, rfl⟩
    · rw [heq]
    · intro ev hev hcontra
      obtain ⟨p, hp, hple⟩ := hbody ev hev
      rw [hcontra] at hp
      have : (100 : ℤ) = p := by
        exact Option.some_injective ℤ hp
      omega

/-- C10 witness: the concrete one-trainee run has a monotone progress
stream ending in the complete event. -/
theorem C10_witness :
    List.Pairwise (fun a b => a ≤ b)
      (((generateTraineeRecommendationsChunked (fun l => l) "t"
        (some { courses := some [soloCourse], trainees := some [soloTrainee],
                enrollments := some [] })
        evFixtureOptions).1).filterMap (fun e => e.progress))
    ∧ ∃ body, (generateTraineeRecommendationsChunked (fun l => l) "t"
          (some { courses := some [soloCourse], trainees := some [soloTrainee],
                  enrollments := some [] })
          evFixtureOptions).1 = body ++ [completeEv]
        ∧ (∀ ev ∈ body, ∃ p, ev.progress = some p ∧ p ≤ 90)
        ∧ (∀ ev ∈ body, ev.progress ≠ some 100)
        ∧ completeEv.progress = some 100 :=
  C10_monotone_progress (fun l => l) "t" [soloCourse] [soloTrainee] []
    evFixtureOptions (by decide)

/-! ## Claim C9 -/

theorem applyTraineeFilters_shuffle_irrel (sh1 sh2 : List Trainee → List Trainee)
    (trainees : List Trainee) (f : TraineeFilters) (hrs : f.randomSample = false) :
    applyTraineeFilters sh1 trainees f = applyTraineeFilters sh2 trainees f := by
  rw [applyTraineeFilters_eq, applyTraineeFilters_eq]
  have h : randomSampleActive f = false := by
    unfold randomSampleActive
    rw [hrs]
    rfl
  rw [h]
  simp

/-- The identity-relevant projection of a per-trainee result: which
trainee, and which recommendations in which order. -/
def projRec (r : TraineeResult) : Nat × List Recommendation :=
  (r.traineeId, r.recommendations)

/-- C9: with random sampling off, two runs over the same dataset and
options — under any two shuffle sources and any two clocks — produce
the same trainees in the same order with identical recommendation
lists (same probabilities, same ordering). -/
theorem C9_determinism (sh1 sh2 : List Trainee → List Trainee) (now1 now2 : String)
    (data : Option RawDataset) (o : ChunkedOptions)
    (hrs : o.traineeFilters.randomSample = false) :
    Except.map (List.map projRec)
        (generateTraineeRecommendationsChunked sh1 now1 data o).2 =
      Except.map (List.map projRec)
        (generateTraineeRecommendationsChunked sh2 now2 data o).2 := by
  rcases data with _ | d
  · rfl
  obtain ⟨dc, dt, de⟩ := d
  rcases dc with _ | cs
  · rfl
  rcases dt with _ | ts
  · rfl
  rcases de with _ | es
  · rfl
  unfold generateTraineeRecommendationsChunked generateChunkedWith runValidated
  dsimp only
  have hlim : limitedTrainees sh1 { courses := cs, trainees := ts, enrollments := es } o =
      limitedTrainees sh2 { courses := cs, trainees := ts, enrollments := es } o := by
    unfold limitedTrainees
    dsimp only
    rw [applyTraineeFilters_shuffle_irrel sh1 sh2
      (cleanDataIntegrity { courses := cs, trainees := ts, enrollments := es }).trainees
      (effectiveFilters o
        (cleanDataIntegrity { courses := cs, trainees := ts, enrollments := es }))
      hrs]
  rw [hlim]
  have hsc : ∀ now : String,
      runChunks (engineScore o
          (cleanDataIntegrity { courses := cs, trainees := ts, enrollments := es })
          (calculateBasicSimilarityMatrix
            (cleanDataIntegrity { courses := cs, trainees := ts, enrollments := es }).courses))
        (cleanDataIntegrity { courses := cs, trainees := ts, enrollments := es })
        (limitedTrainees sh2 { courses := cs, trainees := ts, enrollments := es } o).length
        now 0
        (chunkList o.chunkSize
          (limitedTrainees sh2 { courses := cs, trainees := ts, enrollments := es } o)) =
      ((chunkTrace (cleanDataIntegrity { courses := cs, trainees := ts, enrollments := es })
          (limitedTrainees sh2 { courses := cs, trainees := ts, enrollments := es } o).length
          now
          (engineG o (cleanDataIntegrity { courses := cs, trainees := ts, enrollments := es })
            (calculateBasicSimilarityMatrix
              (cleanDataIntegrity { courses := cs, trainees := ts, enrollments := es }).courses))
          0
          (chunkList o.chunkSize
            (limitedTrainees sh2 { courses := cs, trainees := ts, enrollments := es } o))),
        .ok ((chunkList o.chunkSize
            (limitedTrainees sh2 { courses := cs, trainees := ts, enrollments := es } o)).flatten.map
          (fun t => mkTraineeResult
            (cleanDataIntegrity { courses := cs, trainees := ts, enrollments := es }) now t
            (engineG o (cleanDataIntegrity { courses := cs, trainees := ts, enrollments := es })
              (calculateBasicSimilarityMatrix
                (cleanDataIntegrity { courses := cs, trainees := ts, enrollments := es }).courses)
              t)))) := by
    intro now
    exact runChunks_ok _ _ _ _ _ 0
  rw [hsc now1, hsc now2]
  simp only [Except.map, List.map_map]
  rfl

/-- C9 witness: two runs of the concrete fixture under different
shuffles and clocks agree on the projected results. -/
theorem C9_witness :
    Except.map (List.map projRec)
        (generateTraineeRecommendationsChunked List.reverse "noon"
          (some { courses := some [soloCourse], trainees := some [soloTrainee],
                  enrollments := some [] })
          evFixtureOptions).2 =
      Except.map (List.map projRec)
        (generateTraineeRecommendationsChunked (fun l => l) "midnight"
          (some { courses := some [soloCourse], trainees := some [soloTrainee],
                  enrollments := some [] })
          evFixtureOptions).2 :=
  C9_determinism List.reverse (fun l => l) "noon" "midnight"
    (some { courses := some [soloCourse], trainees := some [soloTrainee],
            enrollments := some [] })
    evFixtureOptions rfl

/-! ## Claim C7 -/

theorem runFlat_congr (s1 s2 : Trainee → Except String (List Recommendation))
    (cleaned : Dataset) (total : Nat) (now : String) :
    ∀ (l : List Trainee) (gi : Nat), (∀ t ∈ l, s1 t = s2 t) →
      runFlat s1 cleaned total now gi l = runFlat s2 cleaned total now gi l := by
  intro l
  induction l with
  | nil => intro gi _; rfl
  | cons t ts ih =>
    intro gi h
    simp only [runFlat]
    rw [h t (List.mem_cons_self t ts), ih (gi + 1) (fun x hx => h x (List.mem_cons_of_mem t hx))]

theorem flatTrace_no_error (cleaned : Dataset) (total : Nat) (now : String)
    (g : Trainee → List Recommendation) (l : List Trainee) (gi : Nat) :
    ∀ ev ∈ flatTrace cleaned total now g gi l, ev.kind ≠ EvKind.errored := by
  intro ev hev
  have := isWorkEv_flatTrace cleaned total now g l gi ev hev
  rcases this with h | h | h | h <;> rw [h] <;> intro hc <;> cases hc

theorem flatTrace_tc_payloads (cleaned : Dataset) (total : Nat) (now : String)
    (g : Trainee → List Recommendation) :
    ∀ (l : List Trainee) (gi : Nat),
      ((flatTrace cleaned total now g gi l).filter
        (fun e => e.kind = EvKind.traineeComplete)).map (fun e => e.payload) =
      l.map (fun t => some (mkTraineeResult cleaned now t (g t))) := by
  intro l
  induction l with
  | nil => intro gi; rfl
  | cons t ts ih =>
    intro gi
    simp only [flatTrace, List.filter_cons]
    rw [if_neg (by simp [traineeStartEv]), if_pos (by simp [traineeCompleteEv])]
    simp only [List.map_cons]
    rw [ih (gi + 1)]
    rfl

theorem flatTrace_ts_count (cleaned : Dataset) (total : Nat) (now : String)
    (g : Trainee → List Recommendation) :
    ∀ (l : List Trainee) (gi : Nat),
      ((flatTrace cleaned total now g gi l).filter
        (fun e => e.kind = EvKind.traineeStart)).length = l.length := by
  intro l
  induction l with
  | nil => intro gi; rfl
  | cons t ts ih =>
    intro gi
    simp only [flatTrace, List.filter_cons]
    rw [if_pos (by simp [traineeStartEv]), if_neg (by simp [traineeCompleteEv])]
    simp only [List.length_cons]
    rw [ih (gi + 1)]

theorem runFlat_fail (score : Trainee → Except String (List Recommendation))
    (cleaned : Dataset) (total : Nat) (now : String)
    (g : Trainee → List Recommendation) (m : String) :
    ∀ (l : List Trainee) (gi i : Nat) (d : Trainee), i < l.length →
      (∀ t ∈ l.take i, score t = .ok (g t)) →
      score (l.getD i d) = .error m →
      runFlat score cleaned total now gi l =
        (flatTrace cleaned total now g gi (l.take i) ++ [traineeStartEv total (gi + i)],
         .error m) := by
  intro l
  induction l with
  | nil =>
    intro gi i d hi
    exact absurd hi (by simp)
  | cons t ts ih =>
    intro gi i d hi hok herr
    cases i with
    | zero =>
      rw [List.getD_cons_zero] at herr
      simp only [runFlat, herr, List.take_zero, flatTrace, List.nil_append, Nat.add_zero]
    | succ j =>
      have hokt : score t = .ok (g t) := by
        apply hok t
        rw [List.take_succ_cons]
        exact List.mem_cons_self t _
      rw [List.getD_cons_succ] at herr
      simp only [runFlat, hokt]
      rw [ih (gi + 1) j d (by simpa using hi)
        (fun x hx => hok x (by
          rw [List.take_succ_cons]
          exact List.mem_cons_of_mem t hx)) herr]
      simp only [List.take_succ_cons, flatTrace, List.cons_append]
      have : gi + 1 + j = gi + (j + 1) := by omega
      rw [this]

theorem runChunks_fail (score : Trainee → Except String (List Recommendation))
    (cleaned : Dataset) (total : Nat) (now : String)
    (g : Trainee → List Recommendation) (m : String) :
    ∀ (chunks : List (List Trainee)) (p i : Nat) (d : Trainee),
      i < chunks.flatten.length →
      (∀ t ∈ chunks.flatten.take i, score t = .ok (g t)) →
      score (chunks.flatten.getD i d) = .error m →
      (runChunks score cleaned total now p chunks).2 = .error m
      ∧ (∀ ev ∈ (runChunks score cleaned total now p chunks).1,
          ev.kind ≠ EvKind.errored)
      ∧ ((runChunks score cleaned total now p chunks).1.filter
          (fun e => e.kind = EvKind.traineeComplete)).map (fun e => e.payload) =
          (chunks.flatten.take i).map (fun t => some (mkTraineeResult cleaned now t (g t)))
      ∧ ((runChunks score cleaned total now p chunks).1.filter
          (fun e => e.kind = EvKind.traineeStart)).length = i + 1 := by
  intro chunks
  induction chunks with
  | nil =>
    intro p i d hi
    exact absurd hi (by simp)
  | cons chunk rest ih =>
    intro p i d hi hok herr
    by_cases hic : i < chunk.length
    · -- the failure happens inside the first chunk
      have htake : (chunk ++ rest.flatten).take i = chunk.take i :=
        List.take_append_of_le_length (by omega)
      have hgetD : (chunk ++ rest.flatten).getD i d = chunk.getD i d :=
        List.getD_append _ _ _ _ hic
      rw [List.flatten_cons] at hi hok herr
      rw [htake] at hok
      rw [hgetD] at herr
      have hrf := runFlat_fail score cleaned total now g m chunk p i d hic hok herr
      have hout : runChunks score cleaned total now p (chunk :: rest) =
          (chunkStartEv total p ::
            (flatTrace cleaned total now g p (chunk.take i) ++
              [traineeStartEv total (p + i)]),
           .error m) := by
        simp only [runChunks, hrf]
      rw [hout]
      refine ⟨rfl, ?_, ?_, ?_⟩
      · intro ev hev
        rcases List.mem_cons.mp hev with he | hev2
        · rw [he]
          intro hc
          cases hc
        · rcases List.mem_append.mp hev2 with h3 | h4
          · exact flatTrace_no_error cleaned total now g _ p ev h3
          · simp only [List.mem_singleton] at h4
            rw [h4]
            intro hc
            cases hc
      · simp only [List.filter_cons, List.filter_append, List.filter_nil]
        rw [if_neg (by simp [chunkStartEv]), if_neg (by simp [traineeStartEv])]
        rw [List.append_nil, flatTrace_tc_payloads]
        rw [List.flatten_cons, htake]
      · simp only [List.filter_cons, List.filter_append, List.filter_nil]
        rw [if_neg (by simp [chunkStartEv]), if_pos (by simp [traineeStartEv])]
        rw [List.length_append, flatTrace_ts_count]
        simp only [List.length_take, List.length_singleton]
        omega
    · -- the first chunk completes, the failure is further on
      push_neg at hic
      rw [List.flatten_cons] at hi hok herr
      have hchunkok : ∀ t ∈ chunk, score t = .ok (g t) := by
        intro t ht
        apply hok t
        rw [List.take_append_eq_append_take, List.take_of_length_le hic]
        exact List.mem_append.mpr (Or.inl ht)
      have hrf : runFlat score cleaned total now p chunk =
          (flatTrace cleaned total now g p chunk,
           .ok (chunk.map (fun t => mkTraineeResult cleaned now t (g t)))) := by
        rw [runFlat_congr score (fun t => .ok (g t)) cleaned total now chunk p hchunkok]
        exact runFlat_ok cleaned total now g chunk p
      have hi2 : i - chunk.length < rest.flatten.length := by
        rw [List.length_append] at hi
        omega
      have hok2 : ∀ t ∈ rest.flatten.take (i - chunk.length), score t = .ok (g t) := by
        intro t ht
        apply hok t
        rw [List.take_append_eq_append_take, List.take_of_length_le hic]
        exact List.mem_append.mpr (Or.inr ht)
      have herr2 : score (rest.flatten.getD (i - chunk.length) d) = .error m := by
        rw [← List.getD_append_right _ _ _ _ hic]
        exact herr
      obtain ⟨ihs, ihne, ihtc, ihts⟩ := ih (p + chunk.length) (i - chunk.length) d hi2 hok2 herr2
      rcases hrc : runChunks score cleaned total now (p + chunk.length) rest with ⟨evs2, res2⟩
      rw [hrc] at ihs ihne ihtc ihts
      simp only at ihs
      subst ihs
      have hout : runChunks score cleaned total now p (chunk :: rest) =
          (chunkStartEv total p ::
            (flatTrace cleaned total now g p chunk ++
              chunkCompleteEv total (p + chunk.length) :: evs2),
           .error m) := by
        simp only [runChunks, hrf, hrc]
        rfl
      rw [hout]
      refine ⟨rfl, ?_, ?_, ?_⟩
      · intro ev hev
        rcases List.mem_cons.mp hev with he | hev2
        · rw [he]
          intro hc
          cases hc
        · rcases List.mem_append.mp hev2 with h3 | h4
          · exact flatTrace_no_error cleaned total now g _ p ev h3
          · rcases List.mem_cons.mp h4 with he | hev5
            · rw [he]
              intro hc
              cases hc
            · exact ihne ev hev5
      · simp only [List.filter_cons, List.filter_append]
        rw [if_neg (by simp [chunkStartEv]), if_neg (by simp [chunkCompleteEv])]
        rw [List.map_append, flatTrace_tc_payloads, ihtc]
        rw [List.flatten_cons, List.take_append_eq_append_take,
          List.take_of_length_le hic, List.map_append]
      · simp only [List.filter_cons, List.filter_append]
        rw [if_neg (by simp [chunkStartEv]), if_neg (by simp [chunkCompleteEv])]
        rw [List.length_append, flatTrace_ts_count, ihts]
        omega

/-- C7: a missing dataset or missing collection fails immediately with
only the single error event (no sanitization, filtering or scoring
output precedes it); and if scoring throws at the i-th trainee of the
working set after i successes, the run returns that error, emits
exactly one error event carrying the message, the trainee_complete
events already emitted carry exactly the results of the first i
trainees (no retry, no later trainees), and exactly i+1 trainee_start
events were emitted. -/
theorem C7_failure_semantics :
    (∀ (score : Dataset → SimMatrix → Trainee → Except String (List Recommendation))
       (shuffle : List Trainee → List Trainee) (now : String) (o : ChunkedOptions)
       (d : Option RawDataset),
      (d = none ∨ ∃ r, d = some r ∧
        (r.courses = none ∨ r.trainees = none ∨ r.enrollments = none)) →
      generateChunkedWith score shuffle now d o =
        ([errorEv invalidDataMsg], .error invalidDataMsg))
    ∧ (∀ (score : Dataset → SimMatrix → Trainee → Except String (List Recommendation))
        (shuffle : List Trainee → List Trainee) (now : String)
        (cs : List Course) (ts : List Trainee) (es : List Enrollment)
        (o : ChunkedOptions) (g : Trainee → List Recommendation) (m : String)
        (i : Nat) (d : Trainee),
        0 < o.chunkSize →
        i < (limitedTrainees shuffle
          { courses := cs, trainees := ts, enrollments := es } o).length →
        (∀ t ∈ (limitedTrainees shuffle
            { courses := cs, trainees := ts, enrollments := es } o).take i,
          score (cleanDataIntegrity { courses := cs, trainees := ts, enrollments := es })
            (calculateBasicSimilarityMatrix
              (cleanDataIntegrity { courses := cs, trainees := ts, enrollments := es }).courses)
            t = .ok (g t)) →
        score (cleanDataIntegrity { courses := cs, trainees := ts, enrollments := es })
          (calculateBasicSimilarityMatrix
            (cleanDataIntegrity { courses := cs, trainees := ts, enrollments := es }).courses)
          ((limitedTrainees shuffle
            { courses := cs, trainees := ts, enrollments := es } o).getD i d) = .error m →
        (generateChunkedWith score shuffle now
            (some { courses := some cs, trainees := some ts, enrollments := some es })
            o).2 = .error m
        ∧ ((generateChunkedWith score shuffle now
            (some { courses := some cs, trainees := some ts, enrollments := some es })
            o).1.filter (fun e => e.kind = EvKind.errored)).length = 1
        ∧ (∀ ev ∈ (generateChunkedWith score shuffle now
            (some { courses := some cs, trainees := some ts, enrollments := some es })
            o).1, ev.kind = EvKind.errored → ev.message = m)
        ∧ ((generateChunkedWith score shuffle now
            (some { courses := some cs, trainees := some ts, enrollments := some es })
            o).1.filter (fun e => e.kind = EvKind.traineeComplete)).map
              (fun e => e.payload) =
            ((limitedTrainees shuffle
              { courses := cs, trainees := ts, enrollments := es } o).take i).map
              (fun t => some (mkTraineeResult
                (cleanDataIntegrity { courses := cs, trainees := ts, enrollments := es })
                now t (g t)))
        ∧ ((generateChunkedWith score shuffle now
            (some { courses := some cs, trainees := some ts, enrollments := some es })
            o).1.filter (fun e => e.kind = EvKind.traineeStart)).length = i + 1) := by
  constructor
  · intro score shuffle now o d hd
    rcases hd with hd | ⟨r, hd, hnone⟩
    · subst hd
      rfl
    · subst hd
      obtain ⟨rc, rt, re⟩ := r
      rcases hnone with h | h | h
      · simp only at h
        subst h
        rfl
      · simp only at h
        subst h
        rcases rc with _ | c <;> rfl
      · simp only at h
        subst h
        rcases rc with _ | c <;> rcases rt with _ | t <;> rfl
  · intro score shuffle now cs ts es o g m i d hcs hi hok herr
    have hflat : (chunkList o.chunkSize
        (limitedTrainees shuffle { courses := cs, trainees := ts, enrollments := es } o)).flatten =
        limitedTrainees shuffle { courses := cs, trainees := ts, enrollments := es } o :=
      chunkList_flatten _ _ hcs
    obtain ⟨hs, hne, htc, hts⟩ := runChunks_fail
      (score (cleanDataIntegrity { courses := cs, trainees := ts, enrollments := es })
        (calculateBasicSimilarityMatrix
          (cleanDataIntegrity { courses := cs, trainees := ts, enrollments := es }).courses))
      (cleanDataIntegrity { courses := cs, trainees := ts, enrollments := es })
      (limitedTrainees shuffle { courses := cs, trainees := ts, enrollments := es } o).length
      now g m
      (chunkList o.chunkSize
        (limitedTrainees shuffle { courses := cs, trainees := ts, enrollments := es } o))
      0 i d (by rw [hflat]; exact hi) (by rw [hflat]; exact hok) (by rw [hflat]; exact herr)
    rw [hflat] at htc
    rcases hrc : runChunks
      (score (cleanDataIntegrity { courses := cs, trainees := ts, enrollments := es })
        (calculateBasicSimilarityMatrix
          (cleanDataIntegrity { courses := cs, trainees := ts, enrollments := es }).courses))
      (cleanDataIntegrity { courses := cs, trainees := ts, enrollments := es })
      (limitedTrainees shuffle { courses := cs, trainees := ts, enrollments := es } o).length
      now 0
      (chunkList o.chunkSize
        (limitedTrainees shuffle { courses := cs, trainees := ts, enrollments := es } o))
      with ⟨evs, res⟩
    rw [hrc] at hs hne htc hts
    simp only at hs hne htc hts
    subst hs
    have hout : generateChunkedWith score shuffle now
        (some { courses := some cs, trainees := some ts, enrollments := some es }) o =
        (setupEvs ++ evs ++ [errorEv m], .error m) := by
      unfold generateChunkedWith runValidated
      dsimp only
      rw [hrc]
    rw [hout]
    refine ⟨rfl, ?_, ?_, ?_, ?_⟩
    · show ((((setupEvs ++ evs) ++ [errorEv m]).filter
        (fun e => e.kind = EvKind.errored))).length = 1
      rw [List.filter_append, List.filter_append]
      have h1 : setupEvs.filter (fun e => e.kind = EvKind.errored) = [] := rfl
      have h2 : evs.filter (fun e => e.kind = EvKind.errored) = [] := by
        rw [List.filter_eq_nil_iff]
        intro ev hev
        simp only [decide_eq_true_eq]
        exact hne ev hev
      have h3 : [errorEv m].filter (fun e => e.kind = EvKind.errored) = [errorEv m] := by
        simp [errorEv]
      rw [h1, h2, h3]
      rfl
    · intro ev hev hkind
      rcases List.mem_append.mp hev with h12 | h3
      · rcases List.mem_append.mp h12 with h1 | h2
        · simp only [setupEvs, List.mem_cons, List.not_mem_nil, or_false] at h1
          rcases h1 with e | e | e <;> rw [e] at hkind <;> cases hkind
        · exact absurd hkind (hne ev h2)
      · simp only [List.mem_singleton] at h3
        rw [h3]
        rfl
    · show ((((setupEvs ++ evs) ++ [errorEv m]).filter
        (fun e => e.kind = EvKind.traineeComplete))).map (fun e => e.payload) = _
      rw [List.filter_append, List.filter_append]
      have h1 : setupEvs.filter (fun e => e.kind = EvKind.traineeComplete) = [] := rfl
      have h3 : [errorEv m].filter (fun e => e.kind = EvKind.traineeComplete) = [] := by
        simp [errorEv]
      rw [h1, h3, List.nil_append, List.append_nil]
      exact htc
    · show ((((setupEvs ++ evs) ++ [errorEv m]).filter
        (fun e => e.kind = EvKind.traineeStart))).length = i + 1
      rw [List.filter_append, List.filter_append]
      have h1 : setupEvs.filter (fun e => e.kind = EvKind.traineeStart) = [] := rfl
      have h3 : [errorEv m].filter (fun e => e.kind = EvKind.traineeStart) = [] := by
        simp [errorEv]
      rw [h1, h3, List.nil_append, List.append_nil]
      exact hts

/-- C7 witness: a missing dataset yields only the error outcome, and a
scorer that throws on the very first trainee aborts the concrete run
with its message. -/
theorem C7_witness :
    generateChunkedWith (fun _ _ _ => .error "boom") (fun l => l) "t" none
        evFixtureOptions = ([errorEv invalidDataMsg], .error invalidDataMsg)
    ∧ (generateChunkedWith (fun _ _ _ => .error "boom") (fun l => l) "t"
        (some { courses := some [soloCourse], trainees := some [soloTrainee],
                enrollments := some [] }) evFixtureOptions).2 = .error "boom" := by
  constructor
  · exact C7_failure_semantics.1 (fun _ _ _ => .error "boom") (fun l => l) "t"
      evFixtureOptions none (Or.inl rfl)
  · exact (C7_failure_semantics.2 (fun _ _ _ => .error "boom") (fun l => l) "t"
      [soloCourse] [soloTrainee] [] evFixtureOptions (fun _ => []) "boom" 0 soloTrainee
      (by decide) (by decide)
      (by
        intro t ht
        rw [List.take_zero] at ht
        cases ht)
      rfl).1
